import Mathlib

/-!
# Game of Fifteen (`fifteen.c`): board engine

A shallow embedding of the three engine routines of `src/fifteen.c`
(`init`, `move`, `won`) together with the properties of the board they
maintain.

The C program keeps two globals, `int board[DIM_MAX][DIM_MAX]` and `int d`.
Here the board is an explicit value passed through every routine, and `d`
is an explicit argument.  Loops are recursions over the list of indices the
C `for` statement runs through (`List.range d` is `0, 1, ..., d-1`), with
the loop state passed along; an early `return` or `break` is the point at
which the recursion stops.
-/

namespace Fifteen

/-! ## Data model -/

/-- Lower bound for the dimension (`#define DIM_MIN 3`). -/
def DIM_MIN : Nat := 3

/-- Upper bound for the dimension (`#define DIM_MAX 9`). -/
def DIM_MAX : Nat := 9

/-- The global `int board[DIM_MAX][DIM_MAX]`: the int stored at each
(row, column).  Only indices below `d` are ever used by the routines. -/
abbrev Board := Nat → Nat → Int

/-- The assignment `board[r][c] = v`. -/
def setCell (b : Board) (r c : Nat) (v : Int) : Board :=
  fun i j => if i = r ∧ j = c then v else b i j

/-- The board of a freshly started process: a global C array is
zero-initialised. -/
def zeroBoard : Board := fun _ _ => 0

/-- The `d × d` region of the board, row by row (what `draw` prints). -/
def rows (d : Nat) (b : Board) : List (List Int) :=
  (List.range d).map (fun r => (List.range d).map (fun c => b r c))

/-! ## `init` (lines 166-184) -/

/-- Inner loop of `init`: `for (col ...)` over the remaining columns of
row `row`.  The state is the board and the running `count`.  When `d` is
even and `count == 2` the three cells are written and the loop is left by
`break` (the count is not changed). -/
def initCols (d row : Nat) : List Nat → Board × Int → Board × Int
  | [], s => s
  | col :: cols, (b, count) =>
    if d % 2 = 0 ∧ count = 2 then
      (setCell (setCell (setCell b row col 1) row (col + 1) 2) row (col + 2) 0, count)
    else
      initCols d row cols (setCell b row col count, count - 1)

/-- Outer loop of `init`: `for (row ...)`. -/
def initRows (d : Nat) : List Nat → Board × Int → Board × Int
  | [], s => s
  | row :: rest, s => initRows d rest (initCols d row (List.range d) s)

/-- The routine `init`: `count = d * d - 1`, then the two nested loops. -/
def init (d : Nat) (b : Board) : Board :=
  (initRows d (List.range d) (b, (d : Int) * d - 1)).1

/-! ## `move` (lines 207-252) -/

/-- Body of the inner loop of `move` at cell `(row, col)`.  The first
component is `some true` when the body executed `return 1`, and `none` when
control falls through to the next iteration; the second component is the
board afterwards. -/
def moveCell (d : Nat) (tile : Int) (row col : Nat) (b : Board) : Option Bool × Board :=
  if b row col = tile then
    if row > 0 ∧ b (row - 1) col = 0 then
      (some true, setCell (setCell b (row - 1) col (b row col)) row col 0)
    else if row + 1 < d ∧ b (row + 1) col = 0 then
      (some true, setCell (setCell b (row + 1) col (b row col)) row col 0)
    else if col > 0 ∧ b row (col - 1) = 0 then
      (some true, setCell (setCell b row (col - 1) (b row col)) row col 0)
    else if col + 1 < d ∧ b row (col + 1) = 0 then
      (some true, setCell (setCell b row (col + 1) (b row col)) row col 0)
    else
      (none, b)
  else
    (none, b)

/-- Inner loop of `move`: `for (col ...)` over the remaining columns. -/
def moveCols (d : Nat) (tile : Int) (row : Nat) : List Nat → Board → Option Bool × Board
  | [], b => (none, b)
  | col :: cols, b =>
    match moveCell d tile row col b with
    | (some ret, b1) => (some ret, b1)
    | (none, b1) => moveCols d tile row cols b1

/-- Outer loop of `move`: `for (row ...)` over the remaining rows. -/
def moveRows (d : Nat) (tile : Int) : List Nat → Board → Option Bool × Board
  | [], b => (none, b)
  | row :: rest, b =>
    match moveCols d tile row (List.range d) b with
    | (some ret, b1) => (some ret, b1)
    | (none, b1) => moveRows d tile rest b1

/-- The routine `move`: the guard `tile <= 0 && tile >= d*d`, the scan, and
the final `return 0`.  The result is the returned truth value (C `1`/`0`)
and the board after the call. -/
def move (d : Nat) (b : Board) (tile : Int) : Bool × Board :=
  if tile ≤ 0 ∧ tile ≥ (d : Int) * d then
    (false, b)
  else
    match moveRows d tile (List.range d) b with
    | (some ret, b1) => (ret, b1)
    | (none, b1) => (false, b1)

/-! ## `won` (lines 258-281) -/

/-- Body of the inner loop of `won` at cell `(row, col)`: reset `count` to
zero when it equals `d*d`, `return 0` on a mismatch, else increment. -/
def wonCell (d : Nat) (b : Board) (row col : Nat) (count : Int) : Option Bool × Int :=
  if b row col ≠ (if count = (d : Int) * d then 0 else count) then
    (some false, if count = (d : Int) * d then 0 else count)
  else
    (none, (if count = (d : Int) * d then 0 else count) + 1)

/-- Inner loop of `won`. -/
def wonCols (d : Nat) (b : Board) (row : Nat) : List Nat → Int → Option Bool × Int
  | [], count => (none, count)
  | col :: cols, count =>
    match wonCell d b row col count with
    | (some ret, count1) => (some ret, count1)
    | (none, count1) => wonCols d b row cols count1

/-- Outer loop of `won`. -/
def wonRows (d : Nat) (b : Board) : List Nat → Int → Option Bool × Int
  | [], count => (none, count)
  | row :: rest, count =>
    match wonCols d b row (List.range d) count with
    | (some ret, count1) => (some ret, count1)
    | (none, count1) => wonRows d b rest count1

/-- The routine `won`: `count = 1`, the scan, and the final `return 1`. -/
def won (d : Nat) (b : Board) : Bool :=
  match wonRows d b (List.range d) 1 with
  | (some ret, _) => ret
  | (none, _) => true

/-! ## Specification vocabulary -/

/-- The cells of the `d × d` region read in row-major order: index `k`
is the cell in row `k / d`, column `k % d`. -/
def cells (d : Nat) (b : Board) : List Int :=
  (List.range (d * d)).map (fun k => b (k / d) (k % d))

/-- The board is a permutation of `0, 1, ..., d*d - 1`. -/
def IsPermBoard (d : Nat) (b : Board) : Prop :=
  List.Perm (cells d b) ((List.range (d * d)).map Int.ofNat)

instance (d : Nat) (b : Board) : Decidable (IsPermBoard d b) := by
  unfold IsPermBoard; infer_instance

/-- Two cells are orthogonally adjacent: same column and rows one apart, or
same row and columns one apart. -/
def Adjacent (r c r0 c0 : Nat) : Prop :=
  (c0 = c ∧ (r0 + 1 = r ∨ r0 = r + 1)) ∨ (r0 = r ∧ (c0 + 1 = c ∨ c0 = c + 1))

instance (r c r0 c0 : Nat) : Decidable (Adjacent r c r0 c0) := by
  unfold Adjacent; infer_instance

/-- A board given by its rows (cells outside the listed ones hold zero). -/
def ofRows (rs : List (List Int)) : Board :=
  fun i j => (rs.getD i []).getD j 0

/-- Successive calls `move(t₁); move(t₂); ...`, keeping the board. -/
def moves (d : Nat) (b : Board) (tiles : List Int) : Board :=
  tiles.foldl (fun acc t => (move d acc t).2) b

/-- The first neighbour of `(row, col)`, in the order above, below, left,
right, that lies inside the `d × d` region and holds the blank `0`. -/
def blankNbr (d : Nat) (b : Board) (row col : Nat) : Option (Nat × Nat) :=
  if row > 0 ∧ b (row - 1) col = 0 then some (row - 1, col)
  else if row + 1 < d ∧ b (row + 1) col = 0 then some (row + 1, col)
  else if col > 0 ∧ b row (col - 1) = 0 then some (row, col - 1)
  else if col + 1 < d ∧ b row (col + 1) = 0 then some (row, col + 1)
  else none

/-- The board after sliding `tile` from `(r, c)` into `(r0, c0)`. -/
def slide (b : Board) (tile : Int) (r c r0 c0 : Nat) : Board :=
  setCell (setCell b r0 c0 tile) r c 0

/-- Every cell of the region holds a value in `0 .. d*d - 1`. -/
def InRange (d : Nat) (b : Board) : Prop :=
  ∀ r, r < d → ∀ c, c < d → 0 ≤ b r c ∧ b r c < (d : Int) * d

/-- No two distinct cells of the region hold the same value. -/
def Distinct (d : Nat) (b : Board) : Prop :=
  ∀ r, r < d → ∀ c, c < d → ∀ r1, r1 < d → ∀ c1, c1 < d →
    b r c = b r1 c1 → r = r1 ∧ c = c1

/-- The value the solved board holds at row-major index `k`: `k + 1`,
except `0` at the last index `d*d - 1`. -/
def goalValue (d k : Nat) : Int :=
  if k + 1 = d * d then 0 else (k : Int) + 1

/-- The value `init` leaves at `(r, c)`: the descending row-major fill
`d*d - 1 - (r*d + c)`, with `1` and `2` exchanged when `d` is even. -/
def initValue (d r c : Nat) : Int :=
  if d % 2 = 0 ∧ r * d + c + 3 = d * d then 1
  else if d % 2 = 0 ∧ r * d + c + 2 = d * d then 2
  else (d : Int) * d - 1 - ((r * d + c : Nat) : Int)

/-- Some cell of the region holding `tile` is orthogonally adjacent to a
cell of the region holding the blank `0`. -/
def NextToBlank (d : Nat) (b : Board) (tile : Int) : Prop :=
  ∃ r c r0 c0, r < d ∧ c < d ∧ r0 < d ∧ c0 < d ∧
    b r c = tile ∧ b r0 c0 = 0 ∧ Adjacent r c r0 c0

/-- The solved configuration, cell by cell: `(r, c)` holds `r*d + c + 1`,
except the bottom-right cell, which holds `0`. -/
def Solved (d : Nat) (b : Board) : Prop :=
  ∀ r, r < d → ∀ c, c < d →
    b r c = if r = d - 1 ∧ c = d - 1 then 0 else (r : Int) * d + c + 1

/-- The solved configuration as a row-major sequence: `1, 2, ..., d*d - 1, 0`. -/
def solvedCells (d : Nat) : List Int :=
  (List.range (d * d - 1)).map (fun (k : Nat) => (k : Int) + 1) ++ [0]

/-- The board right after `init` in a fresh process with `d = 3`. -/
def fresh3 : Board := init 3 zeroBoard

/-- The routine `move` with the range check the specification proposes as
the repaired guard, `tile <= 0 || tile >= d*d`; the scan is the one of
`move`. -/
def moveFixed (d : Nat) (b : Board) (tile : Int) : Bool × Board :=
  if tile ≤ 0 ∨ tile ≥ (d : Int) * d then
    (false, b)
  else
    match moveRows d tile (List.range d) b with
    | (some ret, b1) => (ret, b1)
    | (none, b1) => (false, b1)

/-! ## The routines with every array access checked

The same three routines once more, now with each read and each write of
`board[r][c]` going through an accessor that fails (`none`) when the row or
the column index is outside `[0, d)`.  Indices are integers here, as in the C
source, so that `row - 1` at `row = 0` would be the index `-1`.  The operator
`&&` evaluates its right operand only when the left one holds. -/

/-- A read of `board[r][c]`: fails unless `0 ≤ r < d` and `0 ≤ c < d`. -/
def readCell (d : Nat) (b : Board) (r c : Int) : Option Int :=
  if 0 ≤ r ∧ r < d ∧ 0 ≤ c ∧ c < d then some (b r.toNat c.toNat) else none

/-- A write `board[r][c] = v`: fails unless `0 ≤ r < d` and `0 ≤ c < d`. -/
def writeCell (d : Nat) (b : Board) (r c : Int) (v : Int) : Option Board :=
  if 0 ≤ r ∧ r < d ∧ 0 ≤ c ∧ c < d then some (setCell b r.toNat c.toNat v) else none

/-- The condition `g && board[r][c] == 0`: the cell is read only when `g`
holds. -/
def guardedBlank (d : Nat) (b : Board) (g : Bool) (r c : Int) : Option Bool :=
  if g then (readCell d b r c).map (fun v => decide (v = 0)) else some false

/-- The two assignments `board[r0][c0] = board[row][col]; board[row][col] = 0`. -/
def slideChecked (d : Nat) (b : Board) (row col : Nat) (r0 c0 : Int) : Option Board := do
  let v ← readCell d b row col
  let b1 ← writeCell d b r0 c0 v
  writeCell d b1 row col 0

/-- Body of the inner loop of `move`, with checked accesses. -/
def moveCellChecked (d : Nat) (tile : Int) (row col : Nat) (b : Board) :
    Option (Option Bool × Board) := do
  let here ← readCell d b row col
  if here = tile then
    if ← guardedBlank d b (decide (row > 0)) ((row : Int) - 1) col then
      let b2 ← slideChecked d b row col ((row : Int) - 1) col
      pure (some true, b2)
    else if ← guardedBlank d b (decide (row + 1 < d)) ((row : Int) + 1) col then
      let b2 ← slideChecked d b row col ((row : Int) + 1) col
      pure (some true, b2)
    else if ← guardedBlank d b (decide (col > 0)) row ((col : Int) - 1) then
      let b2 ← slideChecked d b row col row ((col : Int) - 1)
      pure (some true, b2)
    else if ← guardedBlank d b (decide (col + 1 < d)) row ((col : Int) + 1) then
      let b2 ← slideChecked d b row col row ((col : Int) + 1)
      pure (some true, b2)
    else
      pure (none, b)
  else
    pure (none, b)

/-- Inner loop of `move`, with checked accesses. -/
def moveColsChecked (d : Nat) (tile : Int) (row : Nat) :
    List Nat → Board → Option (Option Bool × Board)
  | [], b => some (none, b)
  | col :: cols, b =>
    match moveCellChecked d tile row col b with
    | none => none
    | some (some ret, b1) => some (some ret, b1)
    | some (none, b1) => moveColsChecked d tile row cols b1

/-- Outer loop of `move`, with checked accesses. -/
def moveRowsChecked (d : Nat) (tile : Int) : List Nat → Board → Option (Option Bool × Board)
  | [], b => some (none, b)
  | row :: rest, b =>
    match moveColsChecked d tile row (List.range d) b with
    | none => none
    | some (some ret, b1) => some (some ret, b1)
    | some (none, b1) => moveRowsChecked d tile rest b1

/-- The routine `move`, with checked accesses. -/
def moveChecked (d : Nat) (b : Board) (tile : Int) : Option (Bool × Board) :=
  if tile ≤ 0 ∧ tile ≥ (d : Int) * d then
    some (false, b)
  else
    match moveRowsChecked d tile (List.range d) b with
    | none => none
    | some (some ret, b1) => some (ret, b1)
    | some (none, b1) => some (false, b1)

/-- Body of the inner loop of `won`, with checked accesses. -/
def wonCellChecked (d : Nat) (b : Board) (row col : Nat) (count : Int) :
    Option (Option Bool × Int) := do
  let v ← readCell d b row col
  if v ≠ (if count = (d : Int) * d then 0 else count) then
    pure (some false, if count = (d : Int) * d then 0 else count)
  else
    pure (none, (if count = (d : Int) * d then 0 else count) + 1)

/-- Inner loop of `won`, with checked accesses. -/
def wonColsChecked (d : Nat) (b : Board) (row : Nat) :
    List Nat → Int → Option (Option Bool × Int)
  | [], count => some (none, count)
  | col :: cols, count =>
    match wonCellChecked d b row col count with
    | none => none
    | some (some ret, count1) => some (some ret, count1)
    | some (none, count1) => wonColsChecked d b row cols count1

/-- Outer loop of `won`, with checked accesses. -/
def wonRowsChecked (d : Nat) (b : Board) : List Nat → Int → Option (Option Bool × Int)
  | [], count => some (none, count)
  | row :: rest, count =>
    match wonColsChecked d b row (List.range d) count with
    | none => none
    | some (some ret, count1) => some (some ret, count1)
    | some (none, count1) => wonRowsChecked d b rest count1

/-- The routine `won`, with checked accesses. -/
def wonChecked (d : Nat) (b : Board) : Option Bool :=
  match wonRowsChecked d b (List.range d) 1 with
  | none => none
  | some (some ret, _) => some ret
  | some (none, _) => some true

/-- Inner loop of `init`, with checked accesses. -/
def initColsChecked (d row : Nat) : List Nat → Board × Int → Option (Board × Int)
  | [], s => some s
  | col :: cols, (b, count) =>
    if d % 2 = 0 ∧ count = 2 then
      match writeCell d b row col 1 with
      | none => none
      | some b1 =>
        match writeCell d b1 row ((col : Int) + 1) 2 with
        | none => none
        | some b2 =>
          match writeCell d b2 row ((col : Int) + 2) 0 with
          | none => none
          | some b3 => some (b3, count)
    else
      match writeCell d b row col count with
      | none => none
      | some b1 => initColsChecked d row cols (b1, count - 1)

/-- Outer loop of `init`, with checked accesses. -/
def initRowsChecked (d : Nat) : List Nat → Board × Int → Option (Board × Int)
  | [], s => some s
  | row :: rest, s =>
    match initColsChecked d row (List.range d) s with
    | none => none
    | some s1 => initRowsChecked d rest s1

/-- The routine `init`, with checked accesses. -/
def initChecked (d : Nat) (b : Board) : Option Board :=
  (initRowsChecked d (List.range d) (b, (d : Int) * d - 1)).map Prod.fst

/-! ## Replaying a sequence of moves on a packed board

To replay long sequences of moves quickly, the `d × d` cells are packed into
one natural number, seven bits per cell, cell `k` (row-major) in the bits
`7k .. 7k+6`; the position of the blank is carried along. -/

/-- The cell with row-major index `k` of the packed board `N`. -/
def cellAt (N k : Nat) : Nat := (N >>> (7 * k)) % 128

/-- The board of `init`, packed. -/
def packInit (d : Nat) : Nat :=
  (List.range (d * d)).foldl
    (fun acc k => acc ^^^ ((initValue d (k / d) (k % d)).toNat <<< (7 * k))) 0

/-- The packed board after the tile `t` at index `p` is exchanged with the
blank at index `z`. -/
def swapPacked (N t p z : Nat) : Nat := N ^^^ (t <<< (7 * z)) ^^^ (t <<< (7 * p))

/-- One move replayed on the packed board `s.1` with the blank at index
`s.2`: the tile `t` must sit above, below, left or right of the blank, and is
then exchanged with it; otherwise the replay stops. -/
def stepPacked (d : Nat) (s : Nat × Nat) (t : Nat) : Option (Nat × Nat) :=
  if d ≤ s.2 ∧ cellAt s.1 (s.2 - d) = t then
    some (swapPacked s.1 t (s.2 - d) s.2, s.2 - d)
  else if s.2 + d < d * d ∧ cellAt s.1 (s.2 + d) = t then
    some (swapPacked s.1 t (s.2 + d) s.2, s.2 + d)
  else if 0 < s.2 % d ∧ cellAt s.1 (s.2 - 1) = t then
    some (swapPacked s.1 t (s.2 - 1) s.2, s.2 - 1)
  else if s.2 % d + 1 < d ∧ cellAt s.1 (s.2 + 1) = t then
    some (swapPacked s.1 t (s.2 + 1) s.2, s.2 + 1)
  else none

/-- A sequence of moves replayed on a packed board. -/
def runPacked (d : Nat) : Nat × Nat → List Nat → Option (Nat × Nat)
  | s, [] => some s
  | s, t :: ts =>
    match stepPacked d s t with
    | none => none
    | some s1 => runPacked d s1 ts

/-- The packed board `packInit d` holds the cells of `init`, with the blank
in the last cell. -/
def packInitOk (d : Nat) : Bool :=
  decide (cellAt (packInit d) (d * d - 1) = 0) &&
  (List.range (d * d)).all
    (fun k => decide (initValue d (k / d) (k % d) = ((cellAt (packInit d) k : Nat) : Int)))

/-- Replaying `tiles` from the packed board of `init` succeeds and ends in
the solved configuration. -/
def solves (d : Nat) (tiles : List Nat) : Bool :=
  match runPacked d (packInit d, d * d - 1) tiles with
  | none => false
  | some s =>
    (List.range (d * d)).all (fun k => decide (((cellAt s.1 k : Nat) : Int) = goalValue d k))

/-- A sequence of 32 tiles that takes the board of `init` for `d = 3` to the
solved board. -/
def solution3 : List Nat :=
  [
    3, 4, 1, 2, 5, 1, 7, 8, 1, 7, 2, 3, 4, 2, 8, 6, 2, 8, 3, 4, 8, 3, 6, 2, 3, 6, 4, 5, 7, 4,
    5, 8
  ]

/-- A sequence of 128 tiles that takes the board of `init` for `d = 4` to the
solved board. -/
def solution4 : List Nat :=
  [
    4, 5, 6, 1, 3, 7, 11, 10, 1, 11, 10, 1, 14, 15, 1, 10, 11, 6, 2, 3, 6, 14, 9, 2, 14, 9, 2,
    13, 15, 2, 9, 14, 3, 4, 5, 3, 4, 6, 14, 9, 13, 4, 3, 8, 12, 15, 4, 3, 8, 12, 15, 4, 3, 8,
    6, 5, 12, 6, 5, 14, 9, 5, 8, 13, 5, 11, 10, 5, 11, 8, 6, 15, 13, 6, 8, 11, 6, 8, 14, 9, 7,
    10, 11, 7, 9, 14, 7, 9, 14, 12, 15, 13, 8, 7, 13, 15, 12, 14, 9, 11, 10, 9, 11, 13, 14, 11,
    13, 10, 9, 13, 11, 14, 15, 12, 14, 11, 10, 15, 11, 14, 12, 11, 15, 10, 14, 15, 11, 12
  ]

/-- A sequence of 234 tiles that takes the board of `init` for `d = 5` to the
solved board. -/
def solution5 : List Nat :=
  [
    5, 6, 1, 2, 7, 1, 11, 12, 1, 8, 13, 1, 17, 18, 1, 14, 19, 1, 23, 24, 1, 19, 9, 13, 8, 11,
    2, 7, 11, 17, 12, 2, 17, 12, 2, 16, 18, 2, 14, 23, 2, 22, 24, 2, 23, 8, 3, 4, 13, 9, 8, 3,
    12, 14, 3, 23, 22, 3, 16, 18, 21, 24, 3, 16, 14, 11, 4, 12, 11, 4, 7, 17, 6, 5, 17, 6, 5,
    10, 18, 5, 4, 14, 16, 21, 5, 4, 10, 18, 15, 20, 24, 5, 4, 15, 20, 24, 5, 4, 15, 10, 6, 7,
    14, 6, 10, 16, 6, 11, 23, 6, 21, 22, 6, 8, 19, 6, 8, 23, 11, 10, 7, 14, 10, 7, 16, 21, 7,
    11, 23, 7, 22, 8, 7, 23, 9, 19, 23, 22, 11, 10, 14, 16, 10, 9, 22, 11, 21, 10, 9, 14, 16,
    17, 18, 20, 24, 15, 10, 9, 20, 24, 15, 10, 9, 20, 14, 22, 19, 23, 11, 19, 12, 16, 22, 21,
    19, 12, 16, 13, 23, 16, 13, 22, 21, 13, 22, 21, 17, 14, 20, 19, 13, 20, 19, 15, 24, 19, 14,
    18, 19, 24, 15, 14, 18, 17, 21, 23, 16, 22, 23, 21, 20, 23, 22, 16, 21, 20, 17, 18, 23, 17,
    20, 22, 17, 23, 18, 20, 23, 18, 20, 19, 24, 20, 19, 24
  ]

/-- A sequence of 498 tiles that takes the board of `init` for `d = 6` to the
solved board. -/
def solution6 : List Nat :=
  [
    6, 7, 8, 1, 3, 9, 15, 14, 1, 15, 14, 1, 20, 21, 1, 16, 22, 1, 27, 28, 1, 23, 29, 1, 34, 35,
    1, 29, 17, 11, 10, 14, 15, 8, 2, 3, 8, 20, 13, 2, 20, 13, 2, 19, 21, 2, 16, 27, 2, 26, 28,
    2, 23, 34, 2, 33, 35, 2, 34, 22, 14, 15, 13, 20, 3, 8, 20, 16, 19, 3, 16, 19, 26, 21, 3,
    26, 21, 3, 25, 28, 3, 23, 33, 3, 32, 35, 3, 33, 27, 13, 15, 4, 5, 10, 11, 14, 4, 15, 13, 4,
    22, 27, 4, 21, 23, 4, 33, 32, 4, 25, 28, 31, 35, 4, 25, 23, 19, 20, 9, 5, 15, 13, 5, 9, 20,
    5, 21, 19, 5, 16, 7, 6, 8, 7, 26, 12, 6, 26, 12, 6, 18, 28, 6, 5, 23, 25, 31, 6, 5, 18, 28,
    24, 30, 35, 6, 5, 24, 30, 35, 6, 5, 24, 18, 12, 7, 20, 16, 7, 12, 23, 7, 21, 19, 7, 25, 33,
    7, 22, 27, 7, 32, 34, 7, 17, 29, 7, 17, 27, 13, 15, 9, 16, 20, 8, 26, 12, 8, 20, 21, 8, 23,
    25, 8, 19, 22, 8, 33, 32, 8, 13, 27, 8, 34, 17, 8, 27, 15, 9, 10, 11, 14, 15, 9, 22, 13, 9,
    27, 34, 9, 33, 32, 31, 17, 9, 33, 13, 22, 10, 16, 22, 10, 27, 13, 10, 19, 32, 10, 33, 31,
    10, 25, 18, 24, 17, 10, 25, 18, 28, 12, 26, 20, 21, 22, 16, 11, 14, 27, 11, 16, 19, 11, 13,
    33, 11, 32, 18, 11, 31, 25, 24, 30, 12, 28, 11, 24, 30, 12, 35, 17, 12, 11, 28, 35, 17, 12,
    11, 28, 24, 31, 33, 13, 27, 15, 13, 34, 29, 13, 15, 14, 16, 27, 14, 15, 34, 14, 32, 33, 25,
    29, 14, 32, 15, 34, 32, 15, 33, 25, 15, 33, 25, 18, 31, 30, 29, 15, 18, 19, 27, 16, 34, 25,
    16, 27, 19, 16, 33, 18, 16, 31, 30, 16, 31, 30, 23, 24, 28, 29, 16, 31, 18, 33, 30, 23, 31,
    18, 23, 31, 24, 28, 18, 24, 28, 26, 35, 18, 29, 17, 18, 35, 26, 28, 31, 19, 27, 30, 19, 23,
    33, 19, 25, 32, 19, 25, 30, 27, 22, 21, 20, 26, 28, 20, 21, 31, 20, 29, 24, 20, 23, 33, 20,
    23, 33, 30, 25, 20, 30, 22, 31, 21, 29, 33, 21, 31, 22, 21, 23, 30, 21, 22, 31, 23, 22, 31,
    23, 29, 33, 24, 30, 22, 29, 23, 31, 29, 23, 33, 26, 28, 35, 30, 24, 23, 33, 26, 28, 35, 30,
    24, 23, 33, 29, 31, 27, 25, 32, 34, 25, 32, 31, 27, 32, 31, 34, 25, 31, 32, 27, 34, 32, 27,
    26, 29, 34, 26, 27, 32, 26, 34, 33, 28, 29, 33, 34, 27, 33, 34, 28, 29, 35
  ]

/-- A sequence of 884 tiles that takes the board of `init` for `d = 7` to the
solved board. -/
def solution7 : List Nat :=
  [
    7, 8, 1, 2, 9, 1, 15, 16, 1, 10, 17, 1, 23, 24, 1, 18, 25, 1, 31, 32, 1, 26, 33, 1, 39, 40,
    1, 34, 41, 1, 47, 48, 1, 41, 27, 20, 13, 12, 11, 17, 10, 15, 2, 9, 15, 23, 16, 2, 23, 16,
    2, 22, 24, 2, 18, 31, 2, 30, 32, 2, 26, 39, 2, 38, 40, 2, 34, 47, 2, 46, 48, 2, 47, 33, 19,
    11, 17, 10, 3, 4, 10, 25, 31, 3, 25, 31, 39, 26, 3, 39, 26, 34, 38, 3, 34, 38, 46, 40, 3,
    46, 40, 3, 45, 48, 3, 40, 38, 26, 31, 25, 4, 10, 25, 31, 39, 4, 31, 39, 26, 34, 4, 26, 34,
    38, 46, 4, 38, 46, 40, 45, 4, 32, 37, 44, 48, 4, 32, 38, 26, 31, 39, 17, 5, 6, 12, 13, 11,
    5, 17, 34, 5, 19, 46, 5, 31, 26, 5, 40, 38, 5, 30, 37, 5, 32, 44, 5, 29, 36, 43, 48, 5, 29,
    37, 18, 16, 15, 10, 25, 6, 17, 34, 6, 25, 39, 6, 31, 26, 6, 15, 23, 8, 7, 9, 8, 7, 14, 22,
    7, 23, 16, 6, 30, 18, 24, 7, 6, 24, 37, 36, 7, 6, 24, 37, 36, 29, 43, 7, 6, 21, 28, 35, 42,
    48, 7, 6, 35, 42, 48, 7, 6, 35, 21, 24, 23, 8, 10, 16, 8, 23, 37, 8, 15, 30, 8, 36, 18, 8,
    26, 40, 8, 32, 38, 8, 46, 33, 8, 45, 47, 8, 27, 41, 8, 27, 33, 19, 34, 17, 25, 39, 16, 10,
    9, 14, 23, 9, 10, 15, 9, 37, 36, 9, 30, 26, 9, 18, 32, 9, 40, 46, 9, 38, 45, 9, 19, 33, 9,
    47, 27, 9, 33, 34, 17, 31, 26, 30, 37, 10, 15, 37, 18, 36, 10, 18, 36, 10, 24, 32, 10, 40,
    38, 10, 29, 45, 10, 19, 47, 10, 44, 27, 10, 47, 46, 17, 11, 20, 34, 11, 17, 46, 11, 33, 47,
    11, 19, 44, 11, 19, 44, 29, 45, 43, 27, 11, 29, 38, 30, 16, 39, 25, 12, 13, 31, 12, 25, 26,
    12, 17, 46, 12, 16, 30, 12, 44, 38, 12, 40, 45, 12, 29, 43, 12, 32, 21, 35, 27, 12, 32, 45,
    36, 37, 39, 26, 25, 13, 31, 17, 13, 25, 16, 13, 46, 44, 13, 30, 40, 13, 30, 40, 37, 18, 23,
    14, 15, 23, 14, 22, 24, 14, 18, 36, 13, 29, 45, 21, 14, 13, 21, 32, 35, 14, 13, 24, 28, 42,
    48, 27, 14, 13, 42, 48, 27, 14, 13, 42, 24, 18, 23, 15, 22, 23, 15, 39, 36, 15, 18, 21, 15,
    37, 29, 15, 32, 45, 15, 30, 38, 15, 43, 19, 15, 33, 47, 15, 33, 47, 34, 41, 15, 34, 44, 46,
    40, 16, 25, 40, 46, 38, 16, 46, 38, 44, 47, 16, 44, 47, 16, 33, 34, 16, 47, 38, 17, 20, 38,
    17, 46, 44, 17, 47, 33, 17, 30, 43, 19, 34, 17, 30, 43, 32, 21, 18, 37, 21, 18, 24, 45, 18,
    32, 19, 18, 35, 34, 18, 19, 32, 35, 19, 32, 35, 24, 45, 42, 34, 19, 24, 21, 29, 44, 46, 20,
    38, 47, 20, 46, 43, 20, 33, 30, 32, 35, 20, 32, 35, 24, 21, 20, 44, 29, 37, 45, 42, 21, 20,
    42, 28, 48, 27, 34, 21, 20, 42, 28, 48, 27, 34, 21, 20, 48, 45, 39, 22, 23, 39, 22, 36, 37,
    22, 45, 28, 22, 29, 44, 22, 42, 24, 22, 32, 35, 22, 32, 35, 33, 30, 22, 33, 30, 47, 41, 22,
    47, 46, 40, 25, 26, 37, 36, 23, 39, 45, 23, 36, 29, 23, 28, 42, 23, 44, 35, 23, 24, 32, 23,
    30, 33, 23, 30, 33, 46, 47, 23, 46, 33, 24, 32, 30, 24, 33, 46, 24, 33, 35, 37, 26, 25, 40,
    43, 25, 26, 37, 25, 46, 35, 25, 44, 32, 30, 33, 25, 44, 37, 26, 46, 37, 26, 29, 32, 26, 44,
    30, 26, 28, 42, 48, 33, 26, 28, 42, 48, 33, 34, 27, 33, 28, 42, 48, 45, 33, 28, 34, 27, 28,
    33, 45, 48, 44, 29, 46, 37, 29, 30, 35, 29, 43, 47, 29, 43, 47, 38, 41, 29, 38, 47, 30, 35,
    43, 30, 47, 38, 30, 47, 37, 40, 31, 41, 38, 31, 40, 37, 31, 40, 37, 46, 35, 43, 47, 31, 43,
    44, 32, 35, 44, 32, 42, 47, 32, 42, 47, 34, 33, 45, 48, 47, 34, 33, 47, 34, 35, 36, 39, 48,
    34, 47, 45, 34, 47, 35, 36, 39, 48, 47, 35, 45, 34, 35, 47, 48, 39, 44, 42, 36, 44, 42, 46,
    37, 40, 43, 36, 46, 37, 40, 41, 38, 43, 36, 40, 41, 38, 43, 36, 38, 41, 37, 46, 44, 42, 46,
    44, 40, 38, 41, 37, 44, 40, 38, 41, 37, 44, 41, 38, 42, 45, 39, 46, 40, 41, 38, 42, 45, 40,
    41, 45, 42, 38, 45, 41, 46, 39, 40, 46, 41, 42, 46, 41, 39, 40, 41, 39, 42, 46, 39, 42, 40,
    41, 47, 48, 41, 47, 42, 40, 47, 41, 48, 42, 41, 48
  ]

/-- A sequence of 1420 tiles that takes the board of `init` for `d = 8` to the
solved board. -/
def solution8 : List Nat :=
  [
    8, 9, 10, 1, 3, 11, 19, 18, 1, 19, 18, 1, 26, 27, 1, 20, 28, 1, 35, 36, 1, 29, 37, 1, 44,
    45, 1, 38, 46, 1, 53, 54, 1, 47, 55, 1, 62, 63, 1, 55, 39, 31, 23, 15, 14, 13, 12, 18, 19,
    10, 2, 3, 10, 26, 17, 2, 26, 17, 2, 25, 27, 2, 20, 35, 2, 34, 36, 2, 29, 44, 2, 43, 45, 2,
    38, 53, 2, 52, 54, 2, 47, 62, 2, 61, 63, 2, 62, 46, 30, 22, 13, 12, 18, 19, 17, 26, 3, 10,
    26, 20, 25, 3, 20, 25, 34, 27, 3, 34, 27, 3, 33, 36, 3, 29, 43, 3, 42, 45, 3, 38, 52, 3,
    51, 54, 3, 47, 61, 3, 60, 63, 3, 61, 53, 37, 21, 18, 19, 4, 5, 19, 18, 28, 4, 18, 28, 21,
    44, 4, 21, 44, 37, 52, 4, 37, 52, 53, 47, 4, 53, 47, 61, 60, 4, 51, 54, 59, 63, 4, 51, 53,
    37, 21, 18, 5, 19, 28, 44, 18, 5, 44, 18, 52, 21, 5, 52, 21, 47, 37, 5, 47, 37, 61, 53, 5,
    38, 54, 5, 51, 59, 5, 45, 50, 58, 63, 5, 45, 54, 43, 35, 17, 44, 18, 12, 6, 7, 14, 15, 13,
    6, 12, 21, 6, 22, 37, 6, 52, 47, 6, 61, 38, 6, 35, 43, 6, 51, 54, 6, 42, 50, 6, 45, 58, 6,
    41, 49, 57, 63, 6, 41, 50, 29, 27, 25, 26, 10, 8, 9, 20, 8, 10, 11, 19, 28, 7, 12, 21, 7,
    28, 18, 7, 52, 47, 7, 44, 17, 7, 35, 43, 7, 25, 34, 8, 26, 34, 27, 7, 42, 29, 7, 33, 8, 16,
    24, 32, 36, 8, 32, 36, 40, 49, 8, 7, 50, 41, 57, 8, 7, 40, 49, 48, 56, 63, 8, 7, 48, 56,
    63, 8, 7, 48, 40, 32, 16, 26, 10, 9, 20, 10, 9, 11, 34, 9, 26, 27, 9, 17, 25, 9, 33, 42, 9,
    35, 43, 9, 29, 51, 9, 61, 38, 9, 54, 53, 9, 30, 46, 9, 60, 62, 9, 39, 55, 9, 39, 46, 37,
    22, 21, 52, 44, 25, 17, 26, 10, 24, 27, 10, 26, 33, 10, 16, 42, 10, 35, 29, 10, 50, 51, 10,
    61, 54, 10, 45, 53, 10, 30, 60, 10, 59, 62, 10, 46, 39, 10, 46, 60, 38, 47, 44, 25, 17, 33,
    26, 11, 34, 26, 35, 16, 11, 35, 16, 11, 42, 50, 11, 29, 61, 11, 51, 45, 11, 54, 30, 11, 53,
    59, 11, 38, 60, 11, 62, 46, 11, 60, 47, 44, 25, 52, 12, 14, 15, 13, 21, 12, 13, 21, 23, 22,
    12, 25, 44, 12, 37, 47, 12, 30, 38, 12, 60, 62, 12, 53, 59, 58, 46, 12, 53, 38, 43, 44, 25,
    13, 52, 25, 13, 37, 30, 13, 44, 43, 13, 60, 38, 13, 54, 59, 13, 53, 58, 13, 45, 41, 57, 46,
    13, 45, 59, 61, 33, 17, 25, 52, 14, 28, 52, 14, 37, 44, 14, 25, 43, 14, 60, 54, 14, 33, 61,
    14, 53, 59, 14, 51, 41, 14, 45, 57, 14, 32, 40, 48, 46, 14, 32, 41, 29, 16, 26, 19, 18, 52,
    28, 15, 21, 37, 15, 28, 25, 15, 44, 60, 15, 43, 33, 15, 54, 53, 15, 61, 51, 15, 59, 45, 41,
    29, 16, 42, 50, 16, 15, 41, 29, 40, 16, 15, 40, 32, 48, 16, 15, 36, 49, 56, 63, 46, 16, 15,
    56, 63, 46, 16, 15, 56, 36, 50, 42, 51, 17, 33, 61, 17, 41, 59, 17, 54, 53, 17, 45, 38, 17,
    30, 47, 17, 62, 39, 17, 31, 55, 17, 31, 47, 60, 44, 43, 61, 33, 18, 52, 33, 54, 41, 18, 54,
    41, 18, 59, 45, 18, 53, 30, 18, 38, 62, 18, 60, 47, 18, 39, 31, 18, 47, 44, 43, 61, 41, 54,
    26, 19, 52, 26, 59, 51, 19, 59, 51, 19, 40, 45, 19, 53, 38, 19, 29, 62, 19, 60, 39, 19, 58,
    31, 19, 39, 30, 41, 54, 51, 59, 35, 24, 20, 34, 24, 20, 27, 42, 20, 35, 40, 20, 50, 45, 20,
    53, 29, 20, 32, 62, 20, 60, 58, 20, 57, 31, 20, 58, 38, 51, 33, 25, 28, 21, 37, 61, 21, 28,
    54, 21, 43, 41, 21, 33, 51, 21, 30, 38, 21, 29, 60, 21, 58, 57, 21, 32, 62, 48, 31, 21, 32,
    58, 38, 44, 22, 55, 47, 22, 44, 39, 22, 44, 39, 38, 57, 22, 38, 57, 58, 32, 22, 58, 32, 62,
    48, 22, 62, 48, 45, 36, 56, 31, 22, 45, 53, 60, 29, 30, 41, 23, 55, 39, 57, 41, 23, 57, 41,
    32, 30, 23, 32, 30, 48, 29, 23, 51, 59, 40, 35, 24, 52, 35, 60, 50, 24, 60, 50, 23, 29, 53,
    36, 24, 23, 36, 45, 56, 24, 23, 42, 49, 63, 46, 31, 24, 23, 63, 46, 31, 24, 23, 63, 42, 60,
    50, 40, 59, 25, 54, 33, 25, 51, 32, 25, 43, 57, 25, 30, 41, 25, 55, 39, 25, 44, 47, 25, 39,
    61, 57, 43, 51, 59, 26, 54, 59, 26, 29, 32, 26, 51, 30, 26, 48, 41, 26, 55, 44, 26, 38, 47,
    26, 44, 43, 30, 51, 29, 40, 50, 27, 49, 60, 27, 50, 36, 27, 42, 45, 27, 32, 53, 27, 56, 62,
    27, 41, 58, 27, 41, 58, 38, 47, 27, 38, 48, 29, 51, 30, 28, 33, 30, 28, 43, 55, 28, 51, 29,
    28, 47, 48, 28, 53, 58, 41, 38, 28, 53, 29, 40, 58, 29, 53, 41, 29, 32, 56, 62, 38, 29, 32,
    58, 54, 59, 30, 51, 40, 30, 59, 54, 30, 53, 58, 30, 36, 56, 30, 32, 62, 30, 42, 45, 63, 38,
    30, 42, 32, 62, 42, 32, 45, 63, 32, 45, 63, 60, 46, 32, 38, 31, 32, 46, 49, 50, 56, 36, 53,
    40, 43, 33, 37, 57, 61, 55, 33, 61, 55, 33, 44, 39, 33, 55, 57, 37, 51, 59, 54, 35, 52, 34,
    50, 56, 34, 52, 36, 34, 60, 63, 34, 53, 62, 34, 45, 42, 34, 58, 41, 34, 58, 41, 47, 48, 34,
    47, 48, 44, 39, 34, 44, 43, 40, 62, 35, 54, 62, 35, 41, 48, 35, 40, 43, 35, 47, 44, 35, 43,
    40, 41, 53, 36, 54, 53, 36, 45, 48, 36, 41, 47, 36, 58, 44, 36, 47, 62, 59, 51, 37, 57, 61,
    37, 51, 40, 37, 39, 43, 37, 62, 47, 37, 62, 47, 41, 58, 37, 41, 58, 45, 48, 42, 44, 37, 42,
    44, 38, 63, 60, 52, 54, 53, 59, 40, 47, 39, 43, 62, 41, 58, 40, 59, 45, 40, 39, 41, 58, 42,
    40, 39, 59, 45, 53, 48, 44, 40, 39, 44, 52, 60, 40, 39, 44, 52, 60, 56, 49, 46, 63, 40, 39,
    60, 56, 49, 46, 63, 40, 39, 60, 44, 42, 58, 41, 43, 62, 41, 43, 62, 61, 55, 41, 43, 58, 42,
    52, 59, 62, 58, 42, 62, 58, 61, 43, 42, 61, 43, 51, 47, 45, 58, 62, 61, 43, 62, 61, 52, 44,
    56, 59, 61, 52, 44, 61, 53, 58, 45, 62, 52, 45, 58, 53, 45, 58, 53, 48, 59, 56, 61, 45, 56,
    49, 46, 63, 60, 46, 49, 61, 46, 49, 54, 59, 48, 53, 62, 47, 51, 52, 58, 62, 47, 58, 62, 56,
    53, 47, 56, 53, 61, 48, 59, 54, 48, 59, 47, 61, 59, 47, 54, 50, 63, 60, 49, 48, 47, 54, 50,
    63, 60, 49, 48, 47, 49, 60, 63, 49, 54, 50, 49, 54, 50, 59, 61, 49, 59, 61, 53, 56, 49, 53,
    56, 62, 58, 49, 62, 58, 52, 55, 57, 51, 49, 52, 55, 49, 51, 57, 49, 55, 58, 56, 61, 50, 54,
    59, 53, 61, 50, 53, 61, 62, 56, 50, 62, 56, 52, 51, 55, 58, 50, 52, 51, 55, 58, 50, 55, 51,
    56, 61, 59, 54, 53, 62, 61, 59, 62, 61, 52, 56, 59, 52, 56, 55, 51, 59, 52, 56, 61, 53, 60,
    63, 54, 60, 53, 62, 60, 53, 62, 61, 56, 60, 61, 56, 55, 52, 60, 61, 56, 55, 61, 56, 53, 62,
    55, 53, 56, 61, 53, 56, 62, 55, 56, 62, 55, 54, 63, 56, 54, 55, 62, 54, 55, 63
  ]

/-- A sequence of 2114 tiles that takes the board of `init` for `d = 9` to the
solved board. -/
def solution9 : List Nat :=
  [
    9, 10, 1, 2, 11, 1, 19, 20, 1, 12, 21, 1, 29, 30, 1, 22, 31, 1, 39, 40, 1, 32, 41, 1, 49,
    50, 1, 42, 51, 1, 59, 60, 1, 52, 61, 1, 69, 70, 1, 62, 71, 1, 79, 80, 1, 71, 53, 44, 35,
    26, 17, 16, 15, 14, 13, 21, 12, 19, 2, 11, 19, 29, 20, 2, 29, 20, 2, 28, 30, 2, 22, 39, 2,
    38, 40, 2, 32, 49, 2, 48, 50, 2, 42, 59, 2, 58, 60, 2, 52, 69, 2, 68, 70, 2, 62, 79, 2, 78,
    80, 2, 79, 61, 43, 34, 25, 15, 14, 13, 21, 12, 3, 4, 12, 31, 39, 3, 31, 39, 49, 32, 3, 49,
    32, 42, 48, 3, 42, 48, 58, 50, 3, 58, 50, 3, 57, 60, 3, 52, 68, 3, 67, 70, 3, 62, 78, 3,
    77, 80, 3, 78, 69, 51, 33, 24, 13, 21, 39, 31, 4, 12, 31, 32, 49, 4, 32, 49, 48, 42, 4, 48,
    42, 50, 58, 4, 50, 58, 52, 57, 4, 52, 57, 67, 60, 4, 67, 60, 4, 66, 70, 4, 62, 77, 4, 76,
    80, 4, 77, 68, 59, 41, 23, 39, 5, 6, 21, 13, 39, 5, 13, 39, 24, 23, 5, 24, 23, 33, 41, 5,
    33, 41, 51, 59, 5, 51, 59, 69, 68, 5, 60, 62, 5, 77, 76, 5, 66, 70, 75, 80, 5, 66, 62, 57,
    58, 42, 49, 13, 6, 21, 39, 23, 24, 6, 23, 24, 41, 33, 6, 41, 33, 59, 51, 6, 59, 51, 69, 60,
    6, 58, 57, 6, 77, 62, 6, 67, 70, 6, 66, 75, 6, 56, 65, 74, 80, 6, 56, 70, 52, 50, 48, 32,
    13, 23, 24, 14, 7, 8, 16, 17, 15, 7, 14, 33, 7, 25, 51, 7, 41, 59, 7, 69, 58, 7, 42, 57, 7,
    77, 67, 7, 50, 52, 7, 66, 70, 7, 47, 65, 7, 56, 74, 7, 55, 64, 73, 80, 7, 55, 65, 40, 38,
    22, 20, 29, 10, 9, 11, 10, 9, 18, 28, 9, 10, 19, 12, 31, 21, 39, 8, 14, 33, 8, 39, 24, 8,
    41, 59, 8, 23, 49, 8, 42, 57, 8, 32, 48, 8, 50, 52, 8, 22, 30, 9, 20, 30, 38, 8, 47, 40, 8,
    37, 9, 27, 36, 45, 46, 9, 45, 46, 54, 64, 9, 8, 65, 55, 73, 9, 8, 54, 64, 63, 72, 80, 9, 8,
    63, 72, 80, 9, 8, 63, 54, 45, 27, 20, 10, 29, 30, 10, 20, 38, 10, 48, 22, 10, 37, 47, 10,
    50, 52, 10, 40, 66, 10, 77, 67, 10, 70, 62, 10, 60, 68, 10, 76, 78, 10, 61, 79, 10, 61, 79,
    53, 71, 10, 53, 43, 34, 51, 25, 33, 14, 39, 24, 21, 31, 12, 19, 11, 18, 29, 11, 19, 30, 11,
    20, 48, 11, 13, 22, 11, 37, 50, 11, 32, 52, 11, 40, 77, 11, 57, 67, 11, 70, 60, 11, 58, 68,
    11, 76, 79, 11, 34, 43, 11, 61, 53, 11, 43, 51, 25, 33, 14, 41, 23, 49, 22, 12, 31, 22, 52,
    32, 12, 52, 32, 57, 40, 12, 57, 40, 70, 77, 12, 70, 77, 12, 66, 60, 12, 58, 76, 12, 62, 79,
    12, 34, 61, 12, 78, 53, 12, 61, 68, 69, 59, 42, 40, 57, 37, 13, 52, 37, 70, 50, 13, 70, 50,
    66, 47, 13, 66, 47, 13, 65, 60, 13, 58, 62, 13, 56, 79, 13, 34, 78, 13, 75, 53, 13, 78, 76,
    67, 59, 33, 14, 42, 33, 14, 25, 69, 14, 59, 67, 14, 68, 76, 14, 62, 34, 14, 78, 75, 14, 56,
    79, 74, 53, 14, 56, 34, 77, 57, 40, 33, 42, 15, 26, 25, 15, 42, 59, 15, 69, 68, 15, 67, 62,
    15, 76, 78, 15, 77, 34, 15, 75, 56, 15, 79, 74, 15, 79, 74, 60, 55, 73, 53, 15, 60, 58, 47,
    50, 37, 31, 22, 21, 24, 39, 16, 17, 41, 16, 39, 23, 16, 42, 59, 16, 49, 33, 16, 67, 62, 16,
    40, 57, 16, 77, 34, 16, 50, 47, 16, 74, 58, 16, 65, 55, 16, 60, 73, 16, 45, 54, 63, 53, 16,
    45, 55, 66, 70, 52, 20, 29, 18, 19, 29, 18, 28, 48, 18, 29, 30, 22, 21, 24, 23, 39, 17, 41,
    42, 17, 39, 49, 17, 59, 67, 17, 33, 40, 17, 62, 77, 17, 57, 50, 17, 34, 74, 17, 47, 65, 17,
    47, 65, 70, 38, 18, 52, 38, 66, 27, 18, 66, 27, 17, 60, 55, 54, 18, 17, 54, 45, 63, 18, 17,
    46, 64, 72, 80, 53, 18, 17, 72, 80, 53, 18, 17, 72, 46, 66, 52, 29, 30, 19, 28, 30, 19, 22,
    20, 19, 29, 38, 19, 31, 37, 19, 27, 70, 19, 50, 65, 19, 60, 47, 19, 34, 74, 19, 58, 75, 19,
    76, 78, 19, 56, 61, 19, 51, 43, 19, 51, 43, 44, 71, 19, 44, 68, 69, 67, 59, 33, 40, 32, 37,
    31, 20, 21, 31, 20, 27, 50, 20, 37, 65, 20, 60, 34, 20, 57, 74, 20, 58, 76, 20, 77, 78, 20,
    56, 43, 20, 69, 68, 20, 51, 44, 20, 68, 67, 59, 33, 40, 32, 65, 37, 27, 21, 31, 27, 60, 50,
    21, 60, 50, 21, 70, 34, 21, 57, 58, 21, 47, 76, 21, 77, 56, 21, 75, 43, 21, 69, 51, 21, 61,
    44, 21, 51, 78, 62, 32, 65, 37, 50, 60, 29, 22, 31, 29, 70, 38, 22, 70, 38, 22, 52, 34, 22,
    57, 47, 22, 54, 76, 22, 77, 75, 22, 55, 43, 22, 69, 61, 22, 79, 44, 22, 61, 56, 74, 37, 23,
    49, 65, 32, 37, 23, 32, 37, 62, 74, 23, 62, 74, 78, 56, 23, 75, 69, 23, 61, 79, 23, 55, 43,
    73, 44, 23, 55, 69, 58, 50, 24, 49, 32, 62, 50, 24, 62, 50, 75, 58, 24, 75, 58, 61, 69, 24,
    77, 43, 24, 55, 73, 24, 76, 45, 63, 44, 24, 76, 43, 77, 61, 78, 59, 25, 35, 67, 25, 59, 56,
    25, 68, 51, 25, 69, 79, 25, 69, 79, 55, 73, 25, 55, 73, 43, 76, 25, 43, 76, 45, 63, 25, 45,
    63, 66, 46, 72, 44, 25, 66, 54, 57, 38, 60, 27, 49, 62, 75, 58, 74, 33, 26, 35, 59, 26, 33,
    56, 26, 68, 79, 73, 78, 26, 73, 78, 76, 61, 26, 74, 58, 47, 27, 60, 38, 27, 77, 26, 61, 63,
    54, 57, 27, 52, 34, 27, 26, 54, 57, 46, 27, 26, 46, 66, 72, 27, 26, 36, 64, 80, 53, 44, 27,
    26, 80, 53, 44, 27, 26, 80, 36, 34, 70, 31, 28, 30, 31, 28, 29, 38, 28, 70, 52, 28, 60, 77,
    28, 46, 54, 28, 47, 61, 28, 57, 63, 28, 74, 76, 28, 43, 55, 28, 78, 69, 28, 78, 69, 79, 51,
    28, 79, 51, 67, 71, 28, 67, 68, 33, 40, 39, 65, 32, 62, 49, 38, 29, 70, 60, 29, 38, 77, 29,
    46, 47, 29, 75, 61, 29, 57, 74, 29, 58, 76, 29, 43, 69, 29, 73, 51, 29, 78, 79, 29, 68, 67,
    29, 68, 51, 56, 37, 32, 62, 49, 77, 38, 70, 30, 31, 60, 30, 70, 46, 30, 52, 47, 30, 75, 57,
    30, 54, 74, 30, 58, 43, 30, 63, 69, 30, 73, 78, 30, 55, 79, 30, 51, 68, 30, 51, 78, 76, 50,
    49, 77, 38, 46, 70, 31, 60, 52, 31, 70, 75, 31, 47, 54, 31, 57, 58, 31, 74, 63, 31, 43, 73,
    31, 69, 55, 31, 76, 78, 31, 79, 51, 31, 78, 50, 37, 32, 49, 37, 32, 56, 50, 32, 73, 76, 32,
    78, 79, 32, 69, 55, 45, 51, 32, 69, 78, 50, 33, 67, 68, 33, 50, 79, 33, 50, 79, 78, 69, 33,
    78, 69, 55, 45, 33, 55, 45, 63, 66, 72, 51, 33, 72, 36, 34, 66, 36, 34, 80, 51, 34, 36, 74,
    43, 76, 73, 56, 40, 35, 59, 67, 35, 40, 79, 35, 68, 50, 35, 69, 78, 35, 69, 78, 45, 55, 35,
    45, 55, 63, 72, 35, 63, 72, 74, 66, 80, 36, 35, 74, 66, 80, 64, 53, 44, 51, 36, 35, 80, 64,
    53, 44, 51, 36, 35, 53, 54, 43, 76, 73, 56, 37, 49, 79, 37, 55, 78, 37, 40, 68, 37, 69, 50,
    37, 67, 71, 37, 67, 68, 39, 79, 49, 61, 38, 77, 61, 38, 56, 55, 38, 49, 40, 38, 78, 69, 38,
    39, 68, 38, 50, 67, 38, 50, 39, 78, 69, 45, 67, 39, 78, 40, 49, 69, 40, 78, 45, 40, 55, 72,
    63, 67, 40, 55, 69, 61, 62, 65, 41, 42, 79, 41, 65, 49, 41, 68, 78, 41, 61, 69, 41, 45, 55,
    41, 72, 63, 41, 72, 63, 73, 66, 74, 67, 41, 73, 56, 77, 62, 49, 65, 42, 79, 68, 42, 65, 61,
    42, 78, 45, 42, 69, 63, 42, 55, 72, 42, 56, 73, 42, 56, 73, 66, 74, 42, 66, 74, 76, 64, 80,
    67, 42, 80, 54, 43, 64, 54, 43, 53, 67, 43, 54, 76, 74, 73, 55, 45, 50, 72, 45, 55, 56, 45,
    55, 56, 73, 66, 45, 73, 66, 74, 80, 45, 74, 80, 76, 54, 45, 76, 54, 64, 53, 67, 51, 44, 67,
    45, 64, 53, 48, 67, 45, 51, 44, 45, 67, 52, 47, 57, 58, 46, 62, 77, 46, 54, 80, 46, 63, 66,
    46, 74, 73, 46, 56, 55, 46, 56, 55, 50, 72, 46, 50, 72, 59, 71, 46, 59, 78, 69, 66, 63, 54,
    58, 57, 47, 52, 48, 47, 57, 53, 47, 51, 64, 47, 80, 76, 47, 80, 76, 74, 73, 47, 74, 73, 55,
    56, 47, 55, 56, 72, 50, 47, 72, 50, 78, 59, 47, 78, 50, 56, 73, 76, 51, 48, 67, 64, 48, 51,
    80, 48, 51, 80, 76, 74, 48, 76, 74, 73, 55, 48, 73, 55, 56, 72, 48, 56, 72, 50, 78, 48, 50,
    63, 49, 61, 66, 78, 63, 49, 54, 72, 56, 50, 49, 56, 55, 73, 76, 51, 80, 74, 73, 76, 51, 73,
    53, 57, 52, 67, 74, 52, 57, 53, 52, 80, 73, 52, 53, 58, 72, 54, 56, 55, 54, 72, 76, 54, 72,
    76, 58, 57, 80, 53, 54, 58, 57, 80, 67, 74, 53, 73, 64, 53, 73, 54, 80, 67, 74, 73, 54, 64,
    53, 54, 73, 74, 67, 57, 76, 56, 78, 63, 55, 78, 63, 69, 59, 55, 69, 59, 68, 71, 55, 68, 59,
    63, 56, 72, 78, 56, 63, 69, 56, 63, 69, 59, 68, 56, 59, 69, 72, 76, 57, 80, 58, 57, 76, 78,
    57, 76, 78, 72, 63, 57, 72, 63, 69, 59, 57, 72, 76, 58, 80, 78, 63, 76, 58, 63, 76, 69, 72,
    58, 69, 72, 59, 66, 61, 77, 72, 59, 77, 72, 62, 76, 63, 69, 59, 62, 76, 75, 70, 60, 74, 67,
    60, 70, 78, 60, 64, 80, 60, 63, 69, 60, 63, 78, 75, 76, 72, 61, 66, 77, 61, 72, 62, 61, 72,
    62, 76, 69, 61, 76, 69, 75, 78, 61, 75, 78, 70, 64, 80, 63, 61, 70, 78, 69, 62, 72, 76, 62,
    69, 75, 62, 69, 75, 78, 70, 62, 78, 70, 64, 80, 62, 64, 80, 74, 67, 73, 63, 62, 73, 67, 74,
    80, 64, 78, 70, 64, 78, 73, 80, 78, 73, 70, 69, 75, 64, 73, 70, 69, 75, 76, 72, 64, 73, 75,
    76, 72, 77, 66, 64, 73, 72, 77, 66, 68, 65, 64, 73, 66, 68, 65, 71, 79, 64, 73, 65, 71, 79,
    64, 73, 65, 66, 72, 75, 70, 78, 74, 67, 80, 69, 78, 74, 69, 78, 76, 70, 74, 76, 70, 77, 75,
    74, 77, 75, 68, 72, 74, 68, 72, 71, 66, 74, 71, 66, 79, 65, 74, 79, 66, 72, 75, 77, 68, 71,
    79, 66, 72, 75, 71, 79, 75, 72, 66, 75, 79, 68, 76, 69, 67, 80, 78, 70, 69, 67, 70, 69, 77,
    76, 68, 71, 76, 68, 67, 77, 68, 67, 71, 79, 72, 76, 67, 71, 79, 72, 76, 67, 71, 68, 77, 79,
    68, 71, 72, 68, 71, 77, 79, 71, 77, 72, 68, 77, 72, 79, 69, 78, 80, 70, 71, 69, 79, 72, 69,
    79, 78, 71, 79, 78, 72, 69, 78, 79, 71, 72, 79, 71, 70, 80, 72, 70, 71, 79, 70, 71, 80
  ]

/-- The solving sequence for each dimension. -/
def solution (d : Nat) : List Nat :=
  match d with
  | 3 => solution3
  | 4 => solution4
  | 5 => solution5
  | 6 => solution6
  | 7 => solution7
  | 8 => solution8
  | 9 => solution9
  | _ => []

/-- The packed board `s.1` with blank index `s.2` describes the `d × d`
region of the board `b`. -/
def Packed (d : Nat) (b : Board) (s : Nat × Nat) : Prop :=
  s.2 < d * d ∧ cellAt s.1 s.2 = 0 ∧
    ∀ k, k < d * d → b (k / d) (k % d) = ((cellAt s.1 k : Nat) : Int)

/-! ## The parity invariant -/

/-- The naive descending fill, without the parity fix: row-major
`d*d - 1, ..., 3, 2, 1, 0`. -/
def descendingBoard (d : Nat) : Board :=
  fun r c => (d : Int) * d - 1 - ((r : Int) * d + c)

/-- The permutation `σ` of the cell indices `0 .. d*d - 1` lists the cells of
the board: cell `k` (row-major) holds `σ k`. -/
def Represents (d : Nat) (b : Board) (σ : Equiv.Perm (Fin (d * d))) : Prop :=
  ∀ k : Fin (d * d), b (k / d) (k % d) = (((σ k : Fin (d * d)) : Nat) : Int)

/-- The parity of a board: the sign of the permutation listing its cells,
times `-1` to the power row plus column of the blank. -/
def Parity (d : Nat) (b : Board) (s : ℤˣ) : Prop :=
  ∃ (σ : Equiv.Perm (Fin (d * d))) (z : Fin (d * d)),
    Represents d b σ ∧ ((σ z : Fin (d * d)) : Nat) = 0 ∧
      Equiv.Perm.sign σ * (-1) ^ ((z : Nat) / d + (z : Nat) % d) = s

/-! ## Basic facts about cell assignment -/

theorem setCell_same (b : Board) (r c : Nat) (v : Int) : setCell b r c v r c = v := by
  simp [setCell]

theorem setCell_other (b : Board) (r c i j : Nat) (v : Int) (h : ¬(i = r ∧ j = c)) :
    setCell b r c v i j = b i j := by
  simp [setCell, h]

/-! ## The scan of `move` -/

theorem moveCell_eq (d : Nat) (tile : Int) (row col : Nat) (b : Board) :
    moveCell d tile row col b =
      if b row col = tile then
        match blankNbr d b row col with
        | some p => (some true, slide b tile row col p.1 p.2)
        | none => (none, b)
      else (none, b) := by
  unfold moveCell blankNbr slide
  split_ifs <;> simp_all

theorem blankNbr_some {d : Nat} {b : Board} {row col : Nat} {p : Nat × Nat}
    (hr : row < d) (hc : col < d) (h : blankNbr d b row col = some p) :
    p.1 < d ∧ p.2 < d ∧ b p.1 p.2 = 0 ∧ Adjacent row col p.1 p.2 := by
  unfold blankNbr at h
  unfold Adjacent
  split_ifs at h with h1 h2 h3 h4 <;> simp at h <;> subst h <;> simp_all <;> omega

theorem blankNbr_none {d : Nat} {b : Board} {row col : Nat}
    (h : blankNbr d b row col = none) (r0 c0 : Nat) (hr0 : r0 < d) (hc0 : c0 < d)
    (hadj : Adjacent row col r0 c0) : b r0 c0 ≠ 0 := by
  unfold blankNbr at h
  unfold Adjacent at hadj
  split_ifs at h with h1 h2 h3 h4
  intro hz
  rcases hadj with ⟨rfl, h5 | h5⟩ | ⟨rfl, h5 | h5⟩
  · apply h1
    refine ⟨by omega, ?_⟩
    have : row - 1 = r0 := by omega
    rw [this]; exact hz
  · apply h2
    subst h5
    exact ⟨hr0, hz⟩
  · apply h3
    refine ⟨by omega, ?_⟩
    have : col - 1 = c0 := by omega
    rw [this]; exact hz
  · apply h4
    subst h5
    exact ⟨hc0, hz⟩

/-- Outcome of the column loop of `move`: either it falls through with the
board untouched and no listed cell holding `tile` has a blank neighbour, or
it returned `1` after sliding `tile` from a listed cell into a blank
neighbour. -/
theorem moveCols_cases (d : Nat) (tile : Int) (row : Nat) (cols : List Nat) (b : Board) :
    (moveCols d tile row cols b = (none, b) ∧
        ∀ c ∈ cols, b row c = tile → blankNbr d b row c = none) ∨
    (∃ c ∈ cols, ∃ p, b row c = tile ∧ blankNbr d b row c = some p ∧
        moveCols d tile row cols b = (some true, slide b tile row c p.1 p.2)) := by
  induction cols with
  | nil => left; simp [moveCols]
  | cons col cols ih =>
    by_cases ht : b row col = tile
    · cases hn : blankNbr d b row col with
      | none =>
        have hcell : moveCell d tile row col b = (none, b) := by
          rw [moveCell_eq]; simp [ht, hn]
        rcases ih with ⟨h1, h2⟩ | ⟨c, hc, p, h1, h2, h3⟩
        · left
          refine ⟨by simp [moveCols, hcell, h1], ?_⟩
          intro c hc hbc
          rcases List.mem_cons.1 hc with rfl | hc
          · exact hn
          · exact h2 c hc hbc
        · right
          exact ⟨c, List.mem_cons_of_mem _ hc, p, h1, h2, by simp [moveCols, hcell, h3]⟩
      | some p =>
        right
        refine ⟨col, List.mem_cons_self _ _, p, ht, hn, ?_⟩
        have hcell : moveCell d tile row col b = (some true, slide b tile row col p.1 p.2) := by
          rw [moveCell_eq]; simp [ht, hn]
        simp [moveCols, hcell]
    · have hcell : moveCell d tile row col b = (none, b) := by
        rw [moveCell_eq]; simp [ht]
      rcases ih with ⟨h1, h2⟩ | ⟨c, hc, p, h1, h2, h3⟩
      · left
        refine ⟨by simp [moveCols, hcell, h1], ?_⟩
        intro c hc hbc
        rcases List.mem_cons.1 hc with rfl | hc
        · exact absurd hbc ht
        · exact h2 c hc hbc
      · right
        exact ⟨c, List.mem_cons_of_mem _ hc, p, h1, h2, by simp [moveCols, hcell, h3]⟩

/-- Outcome of the row loop of `move`, in the same two cases. -/
theorem moveRows_cases (d : Nat) (tile : Int) (rs : List Nat) (b : Board) :
    (moveRows d tile rs b = (none, b) ∧
        ∀ r ∈ rs, ∀ c, c < d → b r c = tile → blankNbr d b r c = none) ∨
    (∃ r ∈ rs, ∃ c, c < d ∧ ∃ p, b r c = tile ∧ blankNbr d b r c = some p ∧
        moveRows d tile rs b = (some true, slide b tile r c p.1 p.2)) := by
  induction rs with
  | nil => left; simp [moveRows]
  | cons row rs ih =>
    rcases moveCols_cases d tile row (List.range d) b with ⟨h1, h2⟩ | ⟨c, hc, p, h1, h2, h3⟩
    · rcases ih with ⟨g1, g2⟩ | ⟨r, hr, c, hc, p, g1, g2, g3⟩
      · left
        refine ⟨by simp [moveRows, h1, g1], ?_⟩
        intro r hr c hc hbc
        rcases List.mem_cons.1 hr with rfl | hr
        · exact h2 c (List.mem_range.2 hc) hbc
        · exact g2 r hr c hc hbc
      · right
        exact ⟨r, List.mem_cons_of_mem _ hr, c, hc, p, g1, g2, by simp [moveRows, h1, g3]⟩
    · right
      exact ⟨row, List.mem_cons_self _ _, c, List.mem_range.1 hc, p, h1, h2,
        by simp [moveRows, h3]⟩

/-- The guard `tile <= 0 && tile >= d*d` of `move` never holds for a
positive dimension. -/
theorem move_guard_false (d : Nat) (hd : 0 < d) (tile : Int) :
    ¬(tile ≤ 0 ∧ tile ≥ (d : Int) * d) := by
  rintro ⟨h1, h2⟩
  have h3 : (0 : Int) < (d : Int) * d := by positivity
  omega

/-- Outcome of `move` on any board: either it returns `0` with the board
untouched and no cell of the region holding `tile` has a blank neighbour, or
it returns `1` after sliding `tile` from a cell of the region into a blank
neighbour. -/
theorem move_cases (d : Nat) (hd : 0 < d) (b : Board) (tile : Int) :
    (move d b tile = (false, b) ∧
        ∀ r, r < d → ∀ c, c < d → b r c = tile → blankNbr d b r c = none) ∨
    (∃ r, r < d ∧ ∃ c, c < d ∧ ∃ p, b r c = tile ∧ blankNbr d b r c = some p ∧
        move d b tile = (true, slide b tile r c p.1 p.2)) := by
  unfold move
  rw [if_neg (move_guard_false d hd tile)]
  rcases moveRows_cases d tile (List.range d) b with ⟨g1, g2⟩ | ⟨r, hr, c, hc, p, g1, g2, g3⟩
  · left
    refine ⟨by simp [g1], ?_⟩
    intro r hr c hc hbc
    exact g2 r (List.mem_range.2 hr) c hc hbc
  · right
    exact ⟨r, List.mem_range.1 hr, c, hc, p, g1, g2, by simp [g3]⟩

/-! ## Permutation boards -/

theorem index_lt {d r c : Nat} (hr : r < d) (hc : c < d) : r * d + c < d * d := by
  have h1 : (r + 1) * d ≤ d * d := Nat.mul_le_mul_right d hr
  have h2 : (r + 1) * d = r * d + d := by ring
  omega

theorem index_div {d r c : Nat} (hc : c < d) : (r * d + c) / d = r := by
  have hd : 0 < d := by omega
  rw [Nat.add_comm, Nat.add_mul_div_right _ _ hd, Nat.div_eq_of_lt hc]
  simp

theorem index_mod {d r c : Nat} (hc : c < d) : (r * d + c) % d = c := by
  rw [Nat.add_comm, Nat.add_mul_mod_self_right, Nat.mod_eq_of_lt hc]

theorem mem_cells {d : Nat} {b : Board} {r c : Nat} (hr : r < d) (hc : c < d) :
    b r c ∈ cells d b := by
  unfold cells
  refine List.mem_map.2 ⟨r * d + c, List.mem_range.2 (index_lt hr hc), ?_⟩
  simp only [index_div hc, index_mod hc]

theorem div_lt_of_lt_sq {d k : Nat} (hk : k < d * d) : k / d < d :=
  Nat.div_lt_of_lt_mul hk

theorem mod_lt_of_lt_sq {d k : Nat} (hk : k < d * d) : k % d < d := by
  have hd : 0 < d := by
    rcases Nat.eq_zero_or_pos d with h | h
    · subst h; simp at hk
    · exact h
  exact Nat.mod_lt _ hd

theorem nodup_targets (n : Nat) : ((List.range n).map Int.ofNat).Nodup :=
  List.Nodup.map (fun _ _ h => Int.ofNat.inj h) (List.nodup_range n)

theorem mem_targets {n : Nat} {v : Int} :
    v ∈ (List.range n).map Int.ofNat ↔ 0 ≤ v ∧ v < (n : Int) := by
  constructor
  · intro h
    obtain ⟨k, hk, rfl⟩ := List.mem_map.1 h
    have := List.mem_range.1 hk
    constructor
    · exact Int.ofNat_nonneg k
    · exact Int.ofNat_lt.2 this
  · rintro ⟨h0, h1⟩
    refine List.mem_map.2 ⟨v.toNat, List.mem_range.2 ?_, ?_⟩
    · omega
    · simp [Int.toNat_of_nonneg h0]

/-- A board is a permutation of `0 .. d*d - 1` exactly when its cells are in
range and pairwise distinct. -/
theorem isPermBoard_iff (d : Nat) (b : Board) :
    IsPermBoard d b ↔ InRange d b ∧ Distinct d b := by
  constructor
  · intro h
    unfold IsPermBoard at h
    constructor
    · intro r hr c hc
      have hm := h.mem_iff.1 (mem_cells (b := b) hr hc)
      have := mem_targets.1 hm
      push_cast at this
      exact this
    · intro r hr c hc r1 hr1 c1 hc1 heq
      have hnd : (cells d b).Nodup := h.nodup_iff.2 (nodup_targets _)
      unfold cells at hnd
      have hk := List.inj_on_of_nodup_map hnd (List.mem_range.2 (index_lt hr hc))
        (List.mem_range.2 (index_lt hr1 hc1))
        (by simp only [index_div hc, index_mod hc, index_div hc1, index_mod hc1]; exact heq)
      have e1 := congrArg (fun k => k / d) hk
      have e2 := congrArg (fun k => k % d) hk
      simp only [index_div hc, index_mod hc, index_div hc1, index_mod hc1] at e1 e2
      exact ⟨e1, e2⟩
  · rintro ⟨hrange, hdist⟩
    unfold IsPermBoard
    have hnd : (cells d b).Nodup := by
      unfold cells
      refine List.Nodup.map_on ?_ (List.nodup_range _)
      intro x hx y hy hxy
      have hx1 := List.mem_range.1 hx
      have hy1 := List.mem_range.1 hy
      have := hdist _ (div_lt_of_lt_sq hx1) _ (mod_lt_of_lt_sq hx1)
        _ (div_lt_of_lt_sq hy1) _ (mod_lt_of_lt_sq hy1) hxy
      rw [← Nat.div_add_mod x d, ← Nat.div_add_mod y d, this.1, this.2]
    have hsub : cells d b ⊆ (List.range (d * d)).map Int.ofNat := by
      intro v hv
      unfold cells at hv
      obtain ⟨k, hk, rfl⟩ := List.mem_map.1 hv
      have hk1 := List.mem_range.1 hk
      have := hrange _ (div_lt_of_lt_sq hk1) _ (mod_lt_of_lt_sq hk1)
      refine mem_targets.2 ?_
      push_cast
      exact this
    refine (List.subperm_of_subset hnd hsub).perm_of_length_le ?_
    simp [cells]

/-! ## Sliding a tile on a permutation board -/

theorem slide_apply (b : Board) (tile : Int) (r c r0 c0 i j : Nat) :
    slide b tile r c r0 c0 i j =
      if i = r ∧ j = c then 0 else if i = r0 ∧ j = c0 then tile else b i j := by
  simp [slide, setCell]

theorem not_adjacent_self (r c : Nat) : ¬Adjacent r c r c := by
  unfold Adjacent; omega

theorem adjacent_ne {r c r0 c0 : Nat} (h : Adjacent r c r0 c0) : ¬(r = r0 ∧ c = c0) := by
  rintro ⟨rfl, rfl⟩
  exact not_adjacent_self _ _ h

/-- Sliding a tile into the blank keeps the cells in range. -/
theorem slide_inRange {d : Nat} {b : Board} {tile : Int} {r c r0 c0 : Nat}
    (hb : InRange d b) (hr : r < d) (hc : c < d) (hr0 : r0 < d) (hc0 : c0 < d)
    (ht : b r c = tile) (hz : b r0 c0 = 0) : InRange d (slide b tile r c r0 c0) := by
  intro i hi j hj
  rw [slide_apply]
  split_ifs with h1 h2
  · have := hb r0 hr0 c0 hc0
    rw [hz] at this
    exact this
  · have := hb r hr c hc
    rw [ht] at this
    exact this
  · exact hb i hi j hj

/-- Sliding a tile into the blank keeps the cells pairwise distinct. -/
theorem slide_distinct {d : Nat} {b : Board} {tile : Int} {r c r0 c0 : Nat}
    (hb : Distinct d b) (hr : r < d) (hc : c < d) (hr0 : r0 < d) (hc0 : c0 < d)
    (ht : b r c = tile) (hz : b r0 c0 = 0) : Distinct d (slide b tile r c r0 c0) := by
  intro i hi j hj i1 hi1 j1 hj1 heq
  rw [slide_apply, slide_apply] at heq
  split_ifs at heq with h1 h2 h3 h4 h5 h6 h7
  · exact ⟨h1.1.trans h2.1.symm, h1.2.trans h2.2.symm⟩
  · -- 0 = tile: the tile cell and the blank cell coincide
    have := hb r0 hr0 c0 hc0 r hr c hc (by rw [hz, ht]; exact heq)
    exact ⟨h1.1.trans (this.1.symm.trans h3.1.symm), h1.2.trans (this.2.symm.trans h3.2.symm)⟩
  · have := hb r0 hr0 c0 hc0 i1 hi1 j1 hj1 (by rw [hz]; exact heq)
    exact absurd ⟨this.1.symm, this.2.symm⟩ h3
  · have := hb r hr c hc r0 hr0 c0 hc0 (by rw [hz, ht]; exact heq)
    exact ⟨h4.1.trans (this.1.symm.trans h5.1.symm), h4.2.trans (this.2.symm.trans h5.2.symm)⟩
  · exact ⟨h4.1.trans h6.1.symm, h4.2.trans h6.2.symm⟩
  · have := hb r hr c hc i1 hi1 j1 hj1 (by rw [ht]; exact heq)
    exact absurd ⟨this.1.symm, this.2.symm⟩ h5
  · have := hb i hi j hj r0 hr0 c0 hc0 (by rw [hz]; exact heq)
    exact absurd this h4
  · have := hb i hi j hj r hr c hc (by rw [ht]; exact heq)
    exact absurd this h1
  · exact hb i hi j hj i1 hi1 j1 hj1 heq

theorem slide_isPermBoard {d : Nat} {b : Board} {tile : Int} {r c r0 c0 : Nat}
    (hb : IsPermBoard d b) (hr : r < d) (hc : c < d) (hr0 : r0 < d) (hc0 : c0 < d)
    (ht : b r c = tile) (hz : b r0 c0 = 0) : IsPermBoard d (slide b tile r c r0 c0) := by
  rw [isPermBoard_iff] at hb ⊢
  exact ⟨slide_inRange hb.1 hr hc hr0 hc0 ht hz, slide_distinct hb.2 hr hc hr0 hc0 ht hz⟩

/-- On a permutation board a cell next to the blank does not hold `0`. -/
theorem tile_ne_zero_of_adjacent {d : Nat} {b : Board} {r c r0 c0 : Nat}
    (hb : Distinct d b) (hr : r < d) (hc : c < d) (hr0 : r0 < d) (hc0 : c0 < d)
    (hz : b r0 c0 = 0) (hadj : Adjacent r c r0 c0) : b r c ≠ 0 := by
  intro h
  exact adjacent_ne hadj (hb r hr c hc r0 hr0 c0 hc0 (by rw [h, hz]))

/-- The move of a permutation board is again a permutation board. -/
theorem move_isPermBoard {d : Nat} (hd : 0 < d) {b : Board} (hb : IsPermBoard d b)
    (tile : Int) : IsPermBoard d (move d b tile).2 := by
  rcases move_cases d hd b tile with ⟨h1, _⟩ | ⟨r, hr, c, hc, p, h1, h2, h3⟩
  · rw [h1]; exact hb
  · rw [h3]
    obtain ⟨g1, g2, g3, _⟩ := blankNbr_some hr hc h2
    exact slide_isPermBoard hb hr hc g1 g2 h1 g3

/-! ## The scan of `won` -/

theorem wonCell_eq (d : Nat) (b : Board) (row col k : Nat) :
    wonCell d b row col ((k : Int) + 1) =
      if b row col ≠ goalValue d k then (some false, goalValue d k)
      else (none, goalValue d k + 1) := by
  have h : ((k : Int) + 1 = (d : Int) * d) ↔ (k + 1 = d * d) := by
    constructor <;> intro h <;> exact_mod_cast h
  unfold wonCell goalValue
  simp only [h]

/-- Outcome of the column loop of `won` on the columns `c0, ..., c0+n-1` of
row `row`, entered with `count = row*d + c0 + 1`. -/
theorem wonCols_range (d : Nat) (b : Board) (row : Nat) (hrow : row < d) (n : Nat) :
    ∀ c0, c0 + n ≤ d →
    ((∀ c, c0 ≤ c → c < c0 + n → b row c = goalValue d (row * d + c)) ∧
      ∃ cnt, wonCols d b row (List.range' c0 n) (((row * d + c0 : Nat) : Int) + 1) = (none, cnt) ∧
        (row * d + c0 + n < d * d → cnt = ((row * d + c0 + n : Nat) : Int) + 1)) ∨
    ((∃ c, c0 ≤ c ∧ c < c0 + n ∧ b row c ≠ goalValue d (row * d + c)) ∧
      ∃ cnt, wonCols d b row (List.range' c0 n) (((row * d + c0 : Nat) : Int) + 1)
        = (some false, cnt)) := by
  induction n with
  | zero =>
    intro c0 _
    left
    refine ⟨fun c h1 h2 => by omega, _, by simp [wonCols], fun _ => rfl⟩
  | succ n ih =>
    intro c0 hc0
    have hcell := wonCell_eq d b row c0 (row * d + c0)
    by_cases hv : b row c0 = goalValue d (row * d + c0)
    · rw [if_neg (by simpa using hv)] at hcell
      by_cases hlast : row * d + c0 + 1 = d * d
      · -- the last cell of the board: no column is left
        have hn : n = 0 := by
          by_contra hne
          have : row * d + (c0 + 1) < d * d := index_lt hrow (by omega)
          omega
        subst hn
        left
        refine ⟨fun c h1 h2 => ?_, _, by simp only [wonCols, List.range', hcell]; rfl, fun h => by omega⟩
        have : c = c0 := by omega
        subst this; exact hv
      · have hg : goalValue d (row * d + c0) + 1 = ((row * d + (c0 + 1) : Nat) : Int) + 1 := by
          unfold goalValue; rw [if_neg hlast]; push_cast; ring
        rw [hg] at hcell
        rcases ih (c0 + 1) (by omega) with ⟨h1, cnt, h2, h3⟩ | ⟨⟨c, h1, h2, h3⟩, cnt, h4⟩
        · left
          refine ⟨fun c g1 g2 => ?_, cnt, by simp only [wonCols, List.range', hcell, h2], fun h => ?_⟩
          · rcases Nat.eq_or_lt_of_le g1 with rfl | g3
            · exact hv
            · exact h1 c g3 (by omega)
          · rw [h3 (by omega)]; congr 2; omega
        · right
          exact ⟨⟨c, by omega, by omega, h3⟩, cnt, by simp only [wonCols, List.range', hcell, h4]⟩
    · rw [if_pos (by simpa using hv)] at hcell
      right
      exact ⟨⟨c0, le_refl _, by omega, hv⟩, _, by simp only [wonCols, List.range', hcell]; rfl⟩

/-- Outcome of the row loop of `won` on the rows `r0, ..., r0+m-1`,
entered with `count = r0*d + 1`. -/
theorem wonRows_range (d : Nat) (b : Board) (m : Nat) :
    ∀ r0, r0 + m ≤ d →
    ((∀ r, r0 ≤ r → r < r0 + m → ∀ c, c < d → b r c = goalValue d (r * d + c)) ∧
      ∃ cnt, wonRows d b (List.range' r0 m) (((r0 * d : Nat) : Int) + 1) = (none, cnt)) ∨
    ((∃ r, r0 ≤ r ∧ r < r0 + m ∧ ∃ c, c < d ∧ b r c ≠ goalValue d (r * d + c)) ∧
      ∃ cnt, wonRows d b (List.range' r0 m) (((r0 * d : Nat) : Int) + 1) = (some false, cnt)) := by
  induction m with
  | zero =>
    intro r0 _
    left
    exact ⟨fun r h1 h2 => by omega, _, by simp only [wonRows, List.range']; rfl⟩
  | succ m ih =>
    intro r0 hr0
    have hrow : r0 < d := by omega
    have hcols := wonCols_range d b r0 hrow d 0 (by omega)
    rw [← List.range_eq_range', Nat.add_zero, Nat.zero_add] at hcols
    rcases hcols with ⟨h1, cnt, h2, h3⟩ | ⟨⟨c, _, h1, h2⟩, cnt, h3⟩
    · by_cases hm : m = 0
      · subst hm
        left
        refine ⟨fun r g1 g2 c hc => ?_, cnt, by simp only [wonRows, List.range', h2]⟩
        have : r = r0 := by omega
        subst this
        exact h1 c (Nat.zero_le _) (by omega)
      · have hnext : r0 * d + d < d * d := by
          have h4 : (r0 + 2) * d ≤ d * d := Nat.mul_le_mul_right d (by omega)
          have h5 : (r0 + 2) * d = r0 * d + d + d := by ring
          omega
        have hcnt : cnt = (((r0 + 1) * d : Nat) : Int) + 1 := by
          rw [h3 hnext]; congr 2; ring
        subst hcnt
        rcases ih (r0 + 1) (by omega) with ⟨g1, cnt1, g2⟩ | ⟨⟨r, g1, g2, g3⟩, cnt1, g4⟩
        · left
          refine ⟨fun r k1 k2 c hc => ?_, cnt1, by simp only [wonRows, List.range', h2, g2]⟩
          rcases Nat.eq_or_lt_of_le k1 with rfl | k3
          · exact h1 c (Nat.zero_le _) (by omega)
          · exact g1 r k3 (by omega) c hc
        · right
          exact ⟨⟨r, by omega, by omega, g3⟩, cnt1,
            by simp only [wonRows, List.range', h2, g4]⟩
    · right
      exact ⟨⟨r0, le_refl _, by omega, c, by omega, h2⟩, cnt,
        by simp only [wonRows, List.range', h3]⟩

/-- The routine `won` returns true exactly when every cell of the region
holds the goal value of its row-major index. -/
theorem won_iff_goal (d : Nat) (b : Board) :
    won d b = true ↔ ∀ r, r < d → ∀ c, c < d → b r c = goalValue d (r * d + c) := by
  have h := wonRows_range d b d 0 (by omega)
  rw [← List.range_eq_range'] at h
  simp only [Nat.zero_mul, Nat.cast_zero, Int.zero_add, Nat.zero_add] at h
  unfold won
  rcases h with ⟨h1, cnt, h2⟩ | ⟨⟨r, _, hr, c, hc, h1⟩, cnt, h2⟩
  · rw [h2]
    simp only [true_iff]
    exact fun r hr c hc => h1 r (Nat.zero_le _) hr c hc
  · rw [h2]
    simp only [Bool.false_eq_true, false_iff]
    intro hall
    exact h1 (hall r hr c hc)

/-! ## The board produced by `init` -/

set_option maxRecDepth 100000 in
/-- Cell by cell, `init` produces `initValue`, whatever the board held
before.  Checked by running the loops for each dimension and cell. -/
theorem init_cell (d : Nat) (hd1 : 3 ≤ d) (hd2 : d ≤ 9) (b0 : Board) (r c : Nat)
    (hr : r < d) (hc : c < d) : init d b0 r c = initValue d r c := by
  interval_cases d <;> interval_cases r <;> interval_cases c <;> rfl

theorem initValue_inRange (d : Nat) (hd1 : 3 ≤ d) (hd2 : d ≤ 9) (r c : Nat)
    (hr : r < d) (hc : c < d) : 0 ≤ initValue d r c ∧ initValue d r c < (d : Int) * d := by
  unfold initValue
  interval_cases d <;> simp <;> (try split_ifs) <;> omega

theorem initValue_inj (d : Nat) (hd1 : 3 ≤ d) (hd2 : d ≤ 9) (r c r1 c1 : Nat)
    (hr : r < d) (hc : c < d) (hr1 : r1 < d) (hc1 : c1 < d)
    (h : initValue d r c = initValue d r1 c1) : r = r1 ∧ c = c1 := by
  unfold initValue at h
  interval_cases d <;> simp at h <;> (try split_ifs at h) <;> omega

/-- The board produced by `init` is a permutation board. -/
theorem init_isPermBoard (d : Nat) (hd1 : 3 ≤ d) (hd2 : d ≤ 9) (b0 : Board) :
    IsPermBoard d (init d b0) := by
  rw [isPermBoard_iff]
  constructor
  · intro r hr c hc
    rw [init_cell d hd1 hd2 b0 r c hr hc]
    exact initValue_inRange d hd1 hd2 r c hr hc
  · intro r hr c hc r1 hr1 c1 hc1 h
    rw [init_cell d hd1 hd2 b0 r c hr hc, init_cell d hd1 hd2 b0 r1 c1 hr1 hc1] at h
    exact initValue_inj d hd1 hd2 r c r1 c1 hr hc hr1 hc1 h

/-! ## Properties of `move` -/

/-- On a permutation board, `move` returns true exactly when the tile is a
proper tile value sitting next to the blank. -/
theorem move_true_iff_aux {d : Nat} (hd : 0 < d) {b : Board} (hb : IsPermBoard d b)
    (tile : Int) :
    (move d b tile).1 = true ↔
      (1 ≤ tile ∧ tile ≤ (d : Int) * d - 1 ∧ NextToBlank d b tile) := by
  obtain ⟨hrange, hdist⟩ := (isPermBoard_iff d b).1 hb
  constructor
  · intro h
    rcases move_cases d hd b tile with ⟨h1, _⟩ | ⟨r, hr, c, hc, p, h1, h2, _⟩
    · rw [h1] at h; simp at h
    · obtain ⟨g1, g2, g3, g4⟩ := blankNbr_some hr hc h2
      have hne := tile_ne_zero_of_adjacent hdist hr hc g1 g2 g3 g4
      have hin := hrange r hr c hc
      rw [h1] at hne hin
      exact ⟨by omega, by omega, r, c, p.1, p.2, hr, hc, g1, g2, h1, g3, g4⟩
  · rintro ⟨_, _, r, c, r0, c0, hr, hc, hr0, hc0, h1, h2, h3⟩
    rcases move_cases d hd b tile with ⟨_, g⟩ | ⟨_, _, _, _, _, _, _, g⟩
    · exact absurd h2 (blankNbr_none (g r hr c hc h1) r0 c0 hr0 hc0 h3)
    · rw [g]

/-- C1: for every dimension `d` in `[3,9]`, every permutation board and every
integer `tile`, `move(tile)` returns true if and only if `tile` is in
`1 .. d*d-1` and the cell holding `tile` is orthogonally adjacent to the cell
holding the blank `0`; in every other case it returns false. -/
theorem move_returns_true_iff (d : Nat) (hd1 : 3 ≤ d) (hd2 : d ≤ 9) (b : Board)
    (hb : IsPermBoard d b) (tile : Int) :
    ((move d b tile).1 = true ↔
      (1 ≤ tile ∧ tile ≤ (d : Int) * d - 1 ∧ NextToBlank d b tile)) ∧
    ((move d b tile).1 = false ↔
      ¬(1 ≤ tile ∧ tile ≤ (d : Int) * d - 1 ∧ NextToBlank d b tile)) := by
  have h := move_true_iff_aux (by omega : 0 < d) hb tile
  refine ⟨h, ?_⟩
  rw [← h]
  simp

/-- The theorem `move_returns_true_iff` on the fresh `3 × 3` board: tile `1`
(next to the blank) and tile `8` (far from it). -/
theorem move_returns_true_iff_witness :
    (3 ≤ 3 ∧ 3 ≤ 9 ∧ IsPermBoard 3 fresh3) ∧
    (((move 3 fresh3 1).1 = true ↔
      (1 ≤ (1 : Int) ∧ (1 : Int) ≤ ((3 : Nat) : Int) * (3 : Nat) - 1 ∧ NextToBlank 3 fresh3 1)) ∧
    ((move 3 fresh3 1).1 = false ↔
      ¬(1 ≤ (1 : Int) ∧ (1 : Int) ≤ ((3 : Nat) : Int) * (3 : Nat) - 1 ∧ NextToBlank 3 fresh3 1))) ∧
    (move 3 fresh3 1).1 = true ∧ (move 3 fresh3 8).1 = false :=
  ⟨⟨by decide, by decide, by decide⟩,
    move_returns_true_iff 3 (by decide) (by decide) fresh3 (by decide) 1,
    by decide, by decide⟩

/-- C2: for every dimension `d` in `[3,9]`, every permutation board and every
tile for which `move(tile)` returns true, the resulting board differs from the
original in exactly two cells: the cell that held `tile` now holds `0`, the
cell that held `0` now holds `tile` (and `tile` is not `0`, so both cells did
change), and every other cell is unchanged. -/
theorem move_true_swaps (d : Nat) (hd1 : 3 ≤ d) (hd2 : d ≤ 9) (b : Board)
    (hb : IsPermBoard d b) (tile : Int) (hmove : (move d b tile).1 = true) :
    ∃ r c r0 c0, r < d ∧ c < d ∧ r0 < d ∧ c0 < d ∧ ¬(r = r0 ∧ c = c0) ∧
      b r c = tile ∧ b r0 c0 = 0 ∧ tile ≠ 0 ∧
      (move d b tile).2 r c = 0 ∧ (move d b tile).2 r0 c0 = tile ∧
      ∀ i j, ¬(i = r ∧ j = c) → ¬(i = r0 ∧ j = c0) → (move d b tile).2 i j = b i j := by
  obtain ⟨_, hdist⟩ := (isPermBoard_iff d b).1 hb
  rcases move_cases d (by omega) b tile with ⟨h1, _⟩ | ⟨r, hr, c, hc, p, h1, h2, h3⟩
  · rw [h1] at hmove; simp at hmove
  · obtain ⟨g1, g2, g3, g4⟩ := blankNbr_some hr hc h2
    have hne := tile_ne_zero_of_adjacent hdist hr hc g1 g2 g3 g4
    rw [h1] at hne
    have hpos := adjacent_ne g4
    refine ⟨r, c, p.1, p.2, hr, hc, g1, g2, hpos, h1, g3, hne, ?_, ?_, ?_⟩
    · rw [h3]
      show slide b tile r c p.1 p.2 r c = 0
      rw [slide_apply]; simp
    · rw [h3]
      show slide b tile r c p.1 p.2 p.1 p.2 = tile
      rw [slide_apply, if_neg (fun h => hpos ⟨h.1.symm, h.2.symm⟩)]
      simp
    · intro i j hij hij0
      rw [h3]
      show slide b tile r c p.1 p.2 i j = b i j
      rw [slide_apply, if_neg hij, if_neg hij0]

/-- The theorem `move_true_swaps` on the fresh `3 × 3` board
`[[8,7,6],[5,4,3],[2,1,0]]`: `move(1)` returns true and yields
`[[8,7,6],[5,4,3],[2,0,1]]`. -/
theorem move_true_swaps_witness :
    (3 ≤ 3 ∧ 3 ≤ 9 ∧ IsPermBoard 3 fresh3 ∧ (move 3 fresh3 1).1 = true) ∧
    rows 3 fresh3 = [[8, 7, 6], [5, 4, 3], [2, 1, 0]] ∧
    rows 3 (move 3 fresh3 1).2 = [[8, 7, 6], [5, 4, 3], [2, 0, 1]] ∧
    ∃ r c r0 c0, r < 3 ∧ c < 3 ∧ r0 < 3 ∧ c0 < 3 ∧ ¬(r = r0 ∧ c = c0) ∧
      fresh3 r c = 1 ∧ fresh3 r0 c0 = 0 ∧ (1 : Int) ≠ 0 ∧
      (move 3 fresh3 1).2 r c = 0 ∧ (move 3 fresh3 1).2 r0 c0 = 1 ∧
      ∀ i j, ¬(i = r ∧ j = c) → ¬(i = r0 ∧ j = c0) →
        (move 3 fresh3 1).2 i j = fresh3 i j :=
  ⟨⟨by decide, by decide, by decide, by decide⟩, by decide, by decide,
    move_true_swaps 3 (by decide) (by decide) fresh3 (by decide) 1 (by decide)⟩

/-- C3: for every dimension `d` in `[3,9]`, every board (whatever its
contents) and every integer `tile`, if `move(tile)` returns false then the
board after the call is identical to the board before the call. -/
theorem move_false_unchanged (d : Nat) (hd1 : 3 ≤ d) (hd2 : d ≤ 9) (b : Board)
    (tile : Int) (hmove : (move d b tile).1 = false) : (move d b tile).2 = b := by
  rcases move_cases d (by omega) b tile with ⟨h1, _⟩ | ⟨_, _, _, _, _, _, _, h3⟩
  · rw [h1]
  · rw [h3] at hmove; simp at hmove

/-- The theorem `move_false_unchanged` on the fresh `3 × 3` board: `move(8)`
returns false and the board is unchanged. -/
theorem move_false_unchanged_witness :
    (3 ≤ 3 ∧ 3 ≤ 9 ∧ (move 3 fresh3 8).1 = false) ∧
    (move 3 fresh3 8).2 = fresh3 ∧
    rows 3 (move 3 fresh3 8).2 = [[8, 7, 6], [5, 4, 3], [2, 1, 0]] :=
  ⟨⟨by decide, by decide, by decide⟩,
    move_false_unchanged 3 (by decide) (by decide) fresh3 8 (by decide), by decide⟩

/-! ## Properties of `won` -/

/-- The goal value at the index of `(r, c)`, written with row and column. -/
theorem goalValue_index (d : Nat) (hd1 : 3 ≤ d) (hd2 : d ≤ 9) (r c : Nat)
    (hr : r < d) (hc : c < d) :
    goalValue d (r * d + c) =
      if r = d - 1 ∧ c = d - 1 then 0 else (r : Int) * d + c + 1 := by
  have hiff : (r * d + c + 1 = d * d) ↔ (r = d - 1 ∧ c = d - 1) := by
    interval_cases d <;> omega
  unfold goalValue
  simp only [hiff]
  push_cast
  rfl

/-- The solved sequence is the list of goal values by index. -/
theorem solvedCells_eq (d : Nat) (hd : 0 < d) :
    solvedCells d = (List.range (d * d)).map (goalValue d) := by
  have hpos : 0 < d * d := Nat.mul_pos hd hd
  have hn : d * d = (d * d - 1) + 1 := by omega
  unfold solvedCells
  conv_rhs => rw [hn, List.range_succ, List.map_append]
  congr 1
  · apply List.map_congr_left
    intro k hk
    have := List.mem_range.1 hk
    unfold goalValue
    rw [if_neg (by omega)]
  · simp only [List.map_cons, List.map_nil]
    unfold goalValue
    rw [if_pos (by omega)]

/-- Reading the cells row-major gives the solved sequence exactly when every
cell holds the goal value of its index. -/
theorem cells_eq_solvedCells_iff (d : Nat) (hd : 0 < d) (b : Board) :
    cells d b = solvedCells d ↔
      ∀ r, r < d → ∀ c, c < d → b r c = goalValue d (r * d + c) := by
  rw [solvedCells_eq d hd]
  unfold cells
  rw [List.map_inj_left]
  constructor
  · intro h r hr c hc
    have := h (r * d + c) (List.mem_range.2 (index_lt hr hc))
    simpa only [index_div hc, index_mod hc] using this
  · intro h k hk
    have hk1 := List.mem_range.1 hk
    have := h _ (div_lt_of_lt_sq hk1) _ (mod_lt_of_lt_sq hk1)
    rw [Nat.mul_comm, Nat.div_add_mod] at this
    exact this

/-- C4: for every dimension `d` in `[3,9]` and every board (any integer
contents), `won` returns true if and only if the cells read in row-major
order are exactly `1, 2, ..., d*d-1, 0`, that is, cell `(r, c)` holds
`r*d + c + 1` for every cell except the bottom-right one, which holds `0`. -/
theorem won_iff_solved (d : Nat) (hd1 : 3 ≤ d) (hd2 : d ≤ 9) (b : Board) :
    (won d b = true ↔ cells d b = solvedCells d) ∧ (won d b = true ↔ Solved d b) := by
  constructor
  · rw [won_iff_goal, cells_eq_solvedCells_iff d (by omega)]
  · rw [won_iff_goal]
    unfold Solved
    constructor
    · intro h r hr c hc
      rw [h r hr c hc, goalValue_index d hd1 hd2 r c hr hc]
    · intro h r hr c hc
      rw [h r hr c hc, goalValue_index d hd1 hd2 r c hr hc]

/-- The theorem `won_iff_solved` for `d = 3`: `[[1,2,3],[4,5,6],[7,8,0]]` is
won, `[[1,2,3],[4,5,6],[7,0,8]]` is not. -/
theorem won_iff_solved_witness :
    (3 ≤ 3 ∧ 3 ≤ 9) ∧
    ((won 3 (ofRows [[1, 2, 3], [4, 5, 6], [7, 8, 0]]) = true ↔
        cells 3 (ofRows [[1, 2, 3], [4, 5, 6], [7, 8, 0]]) = solvedCells 3) ∧
      (won 3 (ofRows [[1, 2, 3], [4, 5, 6], [7, 8, 0]]) = true ↔
        Solved 3 (ofRows [[1, 2, 3], [4, 5, 6], [7, 8, 0]]))) ∧
    solvedCells 3 = [1, 2, 3, 4, 5, 6, 7, 8, 0] ∧
    won 3 (ofRows [[1, 2, 3], [4, 5, 6], [7, 8, 0]]) = true ∧
    won 3 (ofRows [[1, 2, 3], [4, 5, 6], [7, 0, 8]]) = false :=
  ⟨⟨by decide, by decide⟩,
    won_iff_solved 3 (by decide) (by decide) (ofRows [[1, 2, 3], [4, 5, 6], [7, 8, 0]]),
    by decide, by decide, by decide⟩

/-! ## The permutation invariant -/

/-- On a permutation board every value `0 .. d*d - 1` occurs exactly once. -/
theorem count_of_isPermBoard {d : Nat} {b : Board} (hb : IsPermBoard d b) (v : Nat)
    (hv : v < d * d) : (cells d b).count (v : Int) = 1 := by
  unfold IsPermBoard at hb
  rw [hb.count_eq]
  exact List.count_eq_one_of_mem (nodup_targets _)
    (List.mem_map.2 ⟨v, List.mem_range.2 hv, rfl⟩)

/-- Any sequence of `move` calls keeps a permutation board a permutation
board. -/
theorem moves_isPermBoard {d : Nat} (hd : 0 < d) (tiles : List Int) :
    ∀ b, IsPermBoard d b → IsPermBoard d (moves d b tiles) := by
  induction tiles with
  | nil => intro b hb; exact hb
  | cons t ts ih =>
    intro b hb
    unfold moves
    rw [List.foldl_cons]
    exact ih _ (move_isPermBoard hd hb t)

/-- C5: for every dimension `d` in `[3,9]`, every permutation board and every
integer `tile`, the board after `move(tile)` is again a permutation of
`0 .. d*d-1`; consequently every board reachable from `init` by any finite
sequence of `move` calls is a permutation board, has exactly one blank, and
holds each of `1 .. d*d-1` exactly once. -/
theorem move_preserves_permutation (d : Nat) (hd1 : 3 ≤ d) (hd2 : d ≤ 9) :
    (∀ (b : Board) (tile : Int), IsPermBoard d b → IsPermBoard d (move d b tile).2) ∧
    (∀ (b0 : Board) (tiles : List Int),
      IsPermBoard d (moves d (init d b0) tiles) ∧
      (cells d (moves d (init d b0) tiles)).count 0 = 1 ∧
      ∀ v : Nat, 1 ≤ v → v < d * d →
        (cells d (moves d (init d b0) tiles)).count (v : Int) = 1) := by
  have hd : 0 < d := by omega
  refine ⟨fun b tile hb => move_isPermBoard hd hb tile, fun b0 tiles => ?_⟩
  have hp := moves_isPermBoard hd tiles _ (init_isPermBoard d hd1 hd2 b0)
  refine ⟨hp, ?_, fun v _ hv => count_of_isPermBoard hp v hv⟩
  exact count_of_isPermBoard hp 0 (Nat.mul_pos hd hd)

/-- The theorem `move_preserves_permutation` for `d = 3`, with the board after
the calls `move(1); move(4); move(8)` from a fresh start. -/
theorem move_preserves_permutation_witness :
    (3 ≤ 3 ∧ 3 ≤ 9) ∧
    ((∀ (b : Board) (tile : Int), IsPermBoard 3 b → IsPermBoard 3 (move 3 b tile).2) ∧
    (∀ (b0 : Board) (tiles : List Int),
      IsPermBoard 3 (moves 3 (init 3 b0) tiles) ∧
      (cells 3 (moves 3 (init 3 b0) tiles)).count 0 = 1 ∧
      ∀ v : Nat, 1 ≤ v → v < 3 * 3 →
        (cells 3 (moves 3 (init 3 b0) tiles)).count (v : Int) = 1)) ∧
    rows 3 (moves 3 fresh3 [1, 4, 8]) = [[8, 7, 6], [5, 0, 3], [2, 4, 1]] :=
  ⟨⟨by decide, by decide⟩, move_preserves_permutation 3 (by decide) (by decide), by decide⟩

/-! ## Properties of `init` -/

/-- C6: for every odd dimension `d` in `{3,5,7,9}`, after `init` the cell at
row `r`, column `c` holds `d*d - 1 - (r*d + c)` for every `r, c < d`: the
plain descending row-major fill with no swap applied. -/
theorem init_odd_descending (d : Nat) (hd : d = 3 ∨ d = 5 ∨ d = 7 ∨ d = 9) (b0 : Board)
    (r c : Nat) (hr : r < d) (hc : c < d) :
    init d b0 r c = (d : Int) * d - 1 - ((r : Int) * d + c) := by
  rw [init_cell d (by omega) (by omega) b0 r c hr hc]
  unfold initValue
  rcases hd with rfl | rfl | rfl | rfl <;> simp

/-- The theorem `init_odd_descending` for `d = 3` at the cell `(1, 2)`, and
the whole `3 × 3` board after `init`. -/
theorem init_odd_descending_witness :
    ((3 = 3 ∨ 3 = 5 ∨ 3 = 7 ∨ 3 = 9) ∧ 1 < 3 ∧ 2 < 3) ∧
    init 3 zeroBoard 1 2 = ((3 : Nat) : Int) * (3 : Nat) - 1 - (((1 : Nat) : Int) * (3 : Nat) + (2 : Nat)) ∧
    rows 3 (init 3 zeroBoard) = [[8, 7, 6], [5, 4, 3], [2, 1, 0]] :=
  ⟨⟨by decide, by decide, by decide⟩,
    init_odd_descending 3 (by decide) zeroBoard 1 2 (by decide) (by decide), by decide⟩

/-- C7: for every even dimension `d` in `{4,6,8}`, after `init` the cell at
row-major index `k = r*d + c` holds `d*d - 1 - k` for every `k < d*d - 3`, and
the last three cells of the last row (indices `d*d-3`, `d*d-2`, `d*d-1`) hold
`1, 2, 0` in that order; so the exchange of `1` and `2` is the only departure
from the descending fill. -/
theorem init_even_swapped (d : Nat) (hd : d = 4 ∨ d = 6 ∨ d = 8) (b0 : Board) :
    (∀ r, r < d → ∀ c, c < d → r * d + c < d * d - 3 →
      init d b0 r c = (d : Int) * d - 1 - ((r : Int) * d + c)) ∧
    init d b0 (d - 1) (d - 3) = 1 ∧ init d b0 (d - 1) (d - 2) = 2 ∧
    init d b0 (d - 1) (d - 1) = 0 ∧
    cells d (init d b0) =
      (List.range (d * d - 3)).map (fun (k : Nat) => (d : Int) * d - 1 - k) ++ [1, 2, 0] := by
  have hd1 : 3 ≤ d := by omega
  have hd2 : d ≤ 9 := by omega
  have hcell := init_cell d hd1 hd2 b0
  refine ⟨?_, ?_, ?_, ?_, ?_⟩
  · intro r hr c hc hk
    rw [hcell r c hr hc]
    unfold initValue
    rw [if_neg (by omega), if_neg (by omega)]
    push_cast
    rfl
  · rw [hcell _ _ (by omega) (by omega)]
    rcases hd with rfl | rfl | rfl <;> rfl
  · rw [hcell _ _ (by omega) (by omega)]
    rcases hd with rfl | rfl | rfl <;> rfl
  · rw [hcell _ _ (by omega) (by omega)]
    rcases hd with rfl | rfl | rfl <;> rfl
  · have hall : cells d (init d b0) = (List.range (d * d)).map
        (fun k => initValue d (k / d) (k % d)) := by
      unfold cells
      apply List.map_congr_left
      intro k hk
      have hk1 := List.mem_range.1 hk
      exact hcell _ _ (div_lt_of_lt_sq hk1) (mod_lt_of_lt_sq hk1)
    rw [hall]
    rcases hd with rfl | rfl | rfl <;> decide

/-- The theorem `init_even_swapped` for `d = 4`, and the whole `4 × 4` board
after `init`. -/
theorem init_even_swapped_witness :
    (4 = 4 ∨ 4 = 6 ∨ 4 = 8) ∧
    ((∀ r, r < 4 → ∀ c, c < 4 → r * 4 + c < 4 * 4 - 3 →
      init 4 zeroBoard r c = ((4 : Nat) : Int) * (4 : Nat) - 1 - ((r : Int) * (4 : Nat) + c)) ∧
    init 4 zeroBoard (4 - 1) (4 - 3) = 1 ∧ init 4 zeroBoard (4 - 1) (4 - 2) = 2 ∧
    init 4 zeroBoard (4 - 1) (4 - 1) = 0 ∧
    cells 4 (init 4 zeroBoard) =
      (List.range (4 * 4 - 3)).map (fun (k : Nat) => ((4 : Nat) : Int) * (4 : Nat) - 1 - k)
        ++ [1, 2, 0]) ∧
    rows 4 (init 4 zeroBoard) =
      [[15, 14, 13, 12], [11, 10, 9, 8], [7, 6, 5, 4], [3, 1, 2, 0]] :=
  ⟨by decide, init_even_swapped 4 (by decide) zeroBoard, by decide⟩

/-- C8: for every dimension `d` in `[3,9]` (odd and even alike), the board
produced by `init` is a permutation of `0 .. d*d-1`: exactly one cell holds
`0` and each of the values `1 .. d*d-1` appears in exactly one cell. -/
theorem init_permutation (d : Nat) (hd1 : 3 ≤ d) (hd2 : d ≤ 9) (b0 : Board) :
    IsPermBoard d (init d b0) ∧
    (cells d (init d b0)).count 0 = 1 ∧
    ∀ v : Nat, 1 ≤ v → v < d * d → (cells d (init d b0)).count (v : Int) = 1 := by
  have hp := init_isPermBoard d hd1 hd2 b0
  exact ⟨hp, count_of_isPermBoard hp 0 (Nat.mul_pos (by omega) (by omega)),
    fun v _ hv => count_of_isPermBoard hp v hv⟩

/-- The theorem `init_permutation` for `d = 4` from a fresh start. -/
theorem init_permutation_witness :
    (3 ≤ 4 ∧ 4 ≤ 9) ∧
    (IsPermBoard 4 (init 4 zeroBoard) ∧
    (cells 4 (init 4 zeroBoard)).count 0 = 1 ∧
    ∀ v : Nat, 1 ≤ v → v < 4 * 4 → (cells 4 (init 4 zeroBoard)).count (v : Int) = 1) ∧
    cells 4 (init 4 zeroBoard) = [15, 14, 13, 12, 11, 10, 9, 8, 7, 6, 5, 4, 3, 1, 2, 0] :=
  ⟨⟨by decide, by decide⟩, init_permutation 4 (by decide) (by decide) zeroBoard, by decide⟩

/-! ## Rejected moves -/

/-- C9: for every dimension `d` in `[3,9]`, every board and every integer
`tile` that does not occur in any of the `d × d` cells, `move(tile)` returns
false and leaves the board unchanged. -/
theorem move_absent_tile (d : Nat) (hd1 : 3 ≤ d) (hd2 : d ≤ 9) (b : Board) (tile : Int)
    (habs : ∀ r, r < d → ∀ c, c < d → b r c ≠ tile) :
    (move d b tile).1 = false ∧ (move d b tile).2 = b := by
  rcases move_cases d (by omega) b tile with ⟨h1, _⟩ | ⟨r, hr, c, hc, _, h1, _⟩
  · rw [h1]; exact ⟨rfl, rfl⟩
  · exact absurd h1 (habs r hr c hc)

/-- The theorem `move_absent_tile` on the fresh `3 × 3` board with
`tile = 9` (which is `d*d`) and with the negative `tile = -1`. -/
theorem move_absent_tile_witness :
    (3 ≤ 3 ∧ 3 ≤ 9 ∧ (∀ r, r < 3 → ∀ c, c < 3 → fresh3 r c ≠ 9) ∧
      (∀ r, r < 3 → ∀ c, c < 3 → fresh3 r c ≠ -1)) ∧
    ((move 3 fresh3 9).1 = false ∧ (move 3 fresh3 9).2 = fresh3) ∧
    ((move 3 fresh3 (-1)).1 = false ∧ (move 3 fresh3 (-1)).2 = fresh3) :=
  ⟨⟨by decide, by decide, by decide, by decide⟩,
    move_absent_tile 3 (by decide) (by decide) fresh3 9 (by decide),
    move_absent_tile 3 (by decide) (by decide) fresh3 (-1) (by decide)⟩

/-- C10: for every dimension `d` in `[3,9]`, every permutation board and every
`tile ≤ 0` (including `tile = 0`, the value of the blank, which is present on
the board), `move(tile)` returns false and leaves the board unchanged. -/
theorem move_nonpositive_tile (d : Nat) (hd1 : 3 ≤ d) (hd2 : d ≤ 9) (b : Board)
    (hb : IsPermBoard d b) (tile : Int) (ht : tile ≤ 0) :
    (move d b tile).1 = false ∧ (move d b tile).2 = b := by
  have hfalse : (move d b tile).1 = false := by
    cases hm : (move d b tile).1 with
    | false => rfl
    | true =>
      have := ((move_true_iff_aux (by omega : 0 < d) hb tile).1 hm).1
      omega
  refine ⟨hfalse, ?_⟩
  rcases move_cases d (by omega) b tile with ⟨h1, _⟩ | ⟨_, _, _, _, _, _, _, h3⟩
  · rw [h1]
  · rw [h3] at hfalse; simp at hfalse

/-- The theorem `move_nonpositive_tile` on the fresh `3 × 3` board with
`tile = 0`, the value of the blank. -/
theorem move_nonpositive_tile_witness :
    (3 ≤ 3 ∧ 3 ≤ 9 ∧ IsPermBoard 3 fresh3 ∧ (0 : Int) ≤ 0) ∧
    (move 3 fresh3 0).1 = false ∧ (move 3 fresh3 0).2 = fresh3 :=
  ⟨⟨by decide, by decide, by decide, by decide⟩,
    move_nonpositive_tile 3 (by decide) (by decide) fresh3 (by decide) 0 (by decide)⟩

/-! ## Moves on permutation boards, by position -/

theorem adjacent_symm {r c r0 c0 : Nat} (h : Adjacent r c r0 c0) : Adjacent r0 c0 r c := by
  unfold Adjacent at *; omega

/-- When the cells are pairwise distinct, `move` slides the tile from its
cell into the adjacent blank cell. -/
theorem move_eq_slide {d : Nat} (hd : 0 < d) {b : Board} (hb : Distinct d b) {tile : Int}
    {r c r0 c0 : Nat} (hr : r < d) (hc : c < d) (hr0 : r0 < d) (hc0 : c0 < d)
    (ht : b r c = tile) (hz : b r0 c0 = 0) (hadj : Adjacent r c r0 c0) :
    move d b tile = (true, slide b tile r c r0 c0) := by
  rcases move_cases d hd b tile with ⟨_, g⟩ | ⟨r1, hr1, c1, hc1, p, h1, h2, h3⟩
  · exact absurd hz (blankNbr_none (g r hr c hc ht) r0 c0 hr0 hc0 hadj)
  · obtain ⟨g1, g2, g3, _⟩ := blankNbr_some hr1 hc1 h2
    obtain ⟨e1, e2⟩ := hb r1 hr1 c1 hc1 r hr c hc (by rw [h1, ht])
    obtain ⟨e3, e4⟩ := hb p.1 g1 p.2 g2 r0 hr0 c0 hc0 (by rw [g3, hz])
    rw [h3, e1, e2, e3, e4]

/-- Sliding back restores the board. -/
theorem slide_slide {b : Board} {tile : Int} {r c r0 c0 : Nat}
    (ht : b r c = tile) (hz : b r0 c0 = 0) :
    slide (slide b tile r c r0 c0) tile r0 c0 r c = b := by
  funext i j
  rw [slide_apply, slide_apply]
  by_cases h1 : i = r0 ∧ j = c0
  · rw [if_pos h1, h1.1, h1.2, hz]
  · rw [if_neg h1]
    by_cases h2 : i = r ∧ j = c
    · rw [if_pos h2, h2.1, h2.2, ht]
    · rw [if_neg h2, if_neg h2, if_neg h1]

/-- C16: a successful move is undone by repeating it: for every dimension `d`
in `[3,9]`, every permutation board and every tile for which `move(tile)`
returns true, a second call `move(tile)` on the resulting board also returns
true and restores the original board exactly. -/
theorem move_twice_restores (d : Nat) (hd1 : 3 ≤ d) (hd2 : d ≤ 9) (b : Board)
    (hb : IsPermBoard d b) (tile : Int) (hmove : (move d b tile).1 = true) :
    (move d (move d b tile).2 tile).1 = true ∧ (move d (move d b tile).2 tile).2 = b := by
  have hd : 0 < d := by omega
  rcases move_cases d hd b tile with ⟨h1, _⟩ | ⟨r, hr, c, hc, p, h1, h2, h3⟩
  · rw [h1] at hmove; simp at hmove
  · obtain ⟨g1, g2, g3, g4⟩ := blankNbr_some hr hc h2
    have hperm := slide_isPermBoard hb hr hc g1 g2 h1 g3
    have hdist := ((isPermBoard_iff d _).1 hperm).2
    have hpos := adjacent_ne g4
    have ht1 : slide b tile r c p.1 p.2 p.1 p.2 = tile := by
      rw [slide_apply, if_neg (fun h => hpos ⟨h.1.symm, h.2.symm⟩)]; simp
    have hz1 : slide b tile r c p.1 p.2 r c = 0 := by
      rw [slide_apply]; simp
    have h4 := move_eq_slide hd hdist g1 g2 hr hc ht1 hz1 (adjacent_symm g4)
    rw [h3]
    show (move d (slide b tile r c p.1 p.2) tile).1 = true ∧
      (move d (slide b tile r c p.1 p.2) tile).2 = b
    rw [h4]
    exact ⟨rfl, slide_slide h1 g3⟩

/-- The theorem `move_twice_restores` on the fresh `3 × 3` board with tile `1`:
the two boards along the way. -/
theorem move_twice_restores_witness :
    (3 ≤ 3 ∧ 3 ≤ 9 ∧ IsPermBoard 3 fresh3 ∧ (move 3 fresh3 1).1 = true) ∧
    ((move 3 (move 3 fresh3 1).2 1).1 = true ∧ (move 3 (move 3 fresh3 1).2 1).2 = fresh3) ∧
    rows 3 (move 3 fresh3 1).2 = [[8, 7, 6], [5, 4, 3], [2, 0, 1]] ∧
    rows 3 (move 3 (move 3 fresh3 1).2 1).2 = [[8, 7, 6], [5, 4, 3], [2, 1, 0]] :=
  ⟨⟨by decide, by decide, by decide, by decide⟩,
    move_twice_restores 3 (by decide) (by decide) fresh3 (by decide) 1 (by decide),
    by decide, by decide⟩

/-! ## The two range guards -/

/-- On a permutation board a tile outside `1 .. d*d-1` makes `move` return
false and leave the board as it is. -/
theorem move_out_of_range {d : Nat} (hd : 0 < d) {b : Board} (hb : IsPermBoard d b)
    (tile : Int) (ht : tile ≤ 0 ∨ tile ≥ (d : Int) * d) : move d b tile = (false, b) := by
  rcases move_cases d hd b tile with ⟨h1, _⟩ | ⟨_, _, _, _, _, _, _, h3⟩
  · exact h1
  · have h := (move_true_iff_aux hd hb tile).1 (by rw [h3])
    omega

/-- C12: the range guard of `move` as written (`tile <= 0 && tile >= d*d`) and
the repaired guard (`tile <= 0 || tile >= d*d`) are observably equivalent: for
every dimension `d` in `[3,9]`, every permutation board and every integer
`tile`, the two routines return the same value and leave the same board. -/
theorem move_guards_equivalent (d : Nat) (hd1 : 3 ≤ d) (hd2 : d ≤ 9) (b : Board)
    (hb : IsPermBoard d b) (tile : Int) :
    (moveFixed d b tile).1 = (move d b tile).1 ∧ (moveFixed d b tile).2 = (move d b tile).2 := by
  have hd : 0 < d := by omega
  by_cases hg : tile ≤ 0 ∨ tile ≥ (d : Int) * d
  · rw [move_out_of_range hd hb tile hg]
    unfold moveFixed
    rw [if_pos hg]
    exact ⟨rfl, rfl⟩
  · have : moveFixed d b tile = move d b tile := by
      unfold moveFixed move
      rw [if_neg hg, if_neg (move_guard_false d hd tile)]
    rw [this]
    exact ⟨rfl, rfl⟩

/-- The theorem `move_guards_equivalent` on the fresh `3 × 3` board with
`tile = 9`, where only the repaired guard fires. -/
theorem move_guards_equivalent_witness :
    (3 ≤ 3 ∧ 3 ≤ 9 ∧ IsPermBoard 3 fresh3) ∧
    ((moveFixed 3 fresh3 9).1 = (move 3 fresh3 9).1 ∧
      (moveFixed 3 fresh3 9).2 = (move 3 fresh3 9).2) ∧
    (moveFixed 3 fresh3 9).1 = false ∧ (moveFixed 3 fresh3 1).1 = true :=
  ⟨⟨by decide, by decide, by decide⟩,
    move_guards_equivalent 3 (by decide) (by decide) fresh3 (by decide) 9,
    by decide, by decide⟩

/-! ## Repeating a rejected move -/

theorem moves_replicate_of_false {d : Nat} {b : Board} {tile : Int}
    (h : move d b tile = (false, b)) (n : Nat) : moves d b (List.replicate n tile) = b := by
  induction n with
  | zero => rfl
  | succ n ih =>
    unfold moves at ih ⊢
    rw [List.replicate_succ, List.foldl_cons, h]
    exact ih

/-- C13: failure is idempotent: for every dimension `d` in `[3,9]`, every
board and every tile for which `move(tile)` returns false, calling
`move(tile)` any number `n ≥ 1` of times in succession returns false every
time (the call number `k + 1`, made on the board left by the first `k` calls,
returns false for every `k < n`), and the board after the `n` calls equals the
board before the first call. -/
theorem move_failure_idempotent (d : Nat) (hd1 : 3 ≤ d) (hd2 : d ≤ 9) (b : Board)
    (tile : Int) (hmove : (move d b tile).1 = false) (n : Nat) (_ : 1 ≤ n) :
    (∀ k, k < n → (move d (moves d b (List.replicate k tile)) tile).1 = false) ∧
    moves d b (List.replicate n tile) = b := by
  have hd : 0 < d := by omega
  have h : move d b tile = (false, b) := by
    rcases move_cases d hd b tile with ⟨h1, _⟩ | ⟨_, _, _, _, _, _, _, h3⟩
    · exact h1
    · rw [h3] at hmove; simp at hmove
  refine ⟨fun k _ => ?_, moves_replicate_of_false h n⟩
  rw [moves_replicate_of_false h k]
  exact hmove

/-- The theorem `move_failure_idempotent` on the fresh `3 × 3` board: three
calls `move(8)`. -/
theorem move_failure_idempotent_witness :
    (3 ≤ 3 ∧ 3 ≤ 9 ∧ (move 3 fresh3 8).1 = false ∧ 1 ≤ 3) ∧
    ((∀ k, k < 3 → (move 3 (moves 3 fresh3 (List.replicate k 8)) 8).1 = false) ∧
      moves 3 fresh3 (List.replicate 3 8) = fresh3) ∧
    rows 3 (moves 3 fresh3 [8, 8, 8]) = [[8, 7, 6], [5, 4, 3], [2, 1, 0]] :=
  ⟨⟨by decide, by decide, by decide, by decide⟩,
    move_failure_idempotent 3 (by decide) (by decide) fresh3 8 (by decide) 3 (by decide),
    by decide⟩

/-! ## The first cell holding the tile, and the order of the neighbours -/

theorem range_split {c d : Nat} (h : c < d) :
    List.range d = List.range c ++ c :: List.range' (c + 1) (d - c - 1) := by
  have h1 : List.range' 0 c ++ List.range' c (d - c) = List.range' 0 d := by
    have := List.range'_append 0 c (d - c) 1
    simp only [Nat.one_mul, Nat.zero_add] at this
    rw [this]
    congr 1
    omega
  obtain ⟨m, hm⟩ : ∃ m, d - c = m + 1 := ⟨d - c - 1, by omega⟩
  have h2 : d - c - 1 = m := by omega
  rw [hm] at h1
  rw [h2, List.range_eq_range', List.range_eq_range', ← h1, List.range'_succ]

/-- The column loop of `move` passes over columns that do not hold the tile. -/
theorem moveCols_append (d : Nat) (tile : Int) (row : Nat) (b : Board) (l1 l2 : List Nat)
    (h : ∀ c ∈ l1, b row c ≠ tile) :
    moveCols d tile row (l1 ++ l2) b = moveCols d tile row l2 b := by
  induction l1 with
  | nil => rfl
  | cons col l1 ih =>
    have hcell : moveCell d tile row col b = (none, b) := by
      rw [moveCell_eq, if_neg (h col (List.mem_cons_self _ _))]
    rw [List.cons_append]
    simp only [moveCols, hcell]
    exact ih (fun c hc => h c (List.mem_cons_of_mem _ hc))

/-- The row loop of `move` passes over rows that do not hold the tile. -/
theorem moveRows_append (d : Nat) (tile : Int) (b : Board) (l1 l2 : List Nat)
    (h : ∀ r ∈ l1, ∀ c, c < d → b r c ≠ tile) :
    moveRows d tile (l1 ++ l2) b = moveRows d tile l2 b := by
  induction l1 with
  | nil => rfl
  | cons row l1 ih =>
    have hcols : moveCols d tile row (List.range d) b = (none, b) := by
      have := moveCols_append d tile row b (List.range d) []
        (fun c hc => h row (List.mem_cons_self _ _) c (List.mem_range.1 hc))
      rw [List.append_nil] at this
      rw [this]; rfl
    rw [List.cons_append]
    simp only [moveRows, hcols]
    exact ih (fun r hr => h r (List.mem_cons_of_mem _ hr))

/-- On any board, `move` acts at the first cell in row-major order that holds
the tile, when that cell has a blank neighbour. -/
theorem move_first_cell {d : Nat} (hd : 0 < d) {b : Board} {tile : Int} {r c : Nat}
    (hr : r < d) (hc : c < d) (ht : b r c = tile)
    (hfirst : ∀ r1, r1 < d → ∀ c1, c1 < d → (r1 < r ∨ (r1 = r ∧ c1 < c)) → b r1 c1 ≠ tile)
    {p : Nat × Nat} (hp : blankNbr d b r c = some p) :
    move d b tile = (true, slide b tile r c p.1 p.2) := by
  have hcell : moveCell d tile r c b = (some true, slide b tile r c p.1 p.2) := by
    rw [moveCell_eq, if_pos ht, hp]
  have hcols : moveCols d tile r (List.range d) b = (some true, slide b tile r c p.1 p.2) := by
    rw [range_split hc, moveCols_append d tile r b _ _
      (fun c1 hc1 => hfirst r hr c1 (by have := List.mem_range.1 hc1; omega)
        (Or.inr ⟨rfl, List.mem_range.1 hc1⟩))]
    simp only [moveCols, hcell]
  have hrows : moveRows d tile (List.range d) b = (some true, slide b tile r c p.1 p.2) := by
    rw [range_split hr, moveRows_append d tile b _ _
      (fun r1 hr1 c1 hc1 => hfirst r1 (by have := List.mem_range.1 hr1; omega) c1 hc1
        (Or.inl (List.mem_range.1 hr1)))]
    simp only [moveRows, hcols]
  unfold move
  rw [if_neg (move_guard_false d hd tile), hrows]

/-- C14: for every dimension `d` in `[3,9]` and every grid (including grids
with more than one `0`), if the first cell in row-major order holding `tile`
has at least one orthogonal neighbour (inside the grid) holding `0`, then
`move(tile)` returns true and moves the tile into exactly one neighbour,
chosen by the fixed priority above, then below, then left, then right: the
first neighbour in that order holding `0` receives `tile`, the cell of the
tile becomes `0`, and no other cell changes. -/
theorem move_first_cell_priority (d : Nat) (hd1 : 3 ≤ d) (hd2 : d ≤ 9) (b : Board)
    (tile : Int) (r c : Nat) (hr : r < d) (hc : c < d) (ht : b r c = tile)
    (hfirst : ∀ r1, r1 < d → ∀ c1, c1 < d → (r1 < r ∨ (r1 = r ∧ c1 < c)) → b r1 c1 ≠ tile)
    (hnbr : ∃ r0 c0, r0 < d ∧ c0 < d ∧ Adjacent r c r0 c0 ∧ b r0 c0 = 0) :
    (move d b tile).1 = true ∧
    ∃ r0 c0, r0 < d ∧ c0 < d ∧ Adjacent r c r0 c0 ∧ b r0 c0 = 0 ∧
      ((0 < r ∧ b (r - 1) c = 0) → r0 = r - 1 ∧ c0 = c) ∧
      (¬(0 < r ∧ b (r - 1) c = 0) → (r + 1 < d ∧ b (r + 1) c = 0) →
        r0 = r + 1 ∧ c0 = c) ∧
      (¬(0 < r ∧ b (r - 1) c = 0) → ¬(r + 1 < d ∧ b (r + 1) c = 0) →
        (0 < c ∧ b r (c - 1) = 0) → r0 = r ∧ c0 = c - 1) ∧
      (¬(0 < r ∧ b (r - 1) c = 0) → ¬(r + 1 < d ∧ b (r + 1) c = 0) →
        ¬(0 < c ∧ b r (c - 1) = 0) → r0 = r ∧ c0 = c + 1) ∧
      (move d b tile).2 r0 c0 = tile ∧ (move d b tile).2 r c = 0 ∧
      ∀ i j, ¬(i = r ∧ j = c) → ¬(i = r0 ∧ j = c0) → (move d b tile).2 i j = b i j := by
  have hd : 0 < d := by omega
  obtain ⟨r0, c0, hr0, hc0, hadj, hz⟩ := hnbr
  cases hp : blankNbr d b r c with
  | none => exact absurd hz (blankNbr_none hp r0 c0 hr0 hc0 hadj)
  | some p =>
    obtain ⟨g1, g2, g3, g4⟩ := blankNbr_some hr hc hp
    have hmv := move_first_cell hd hr hc ht hfirst hp
    have hpos := adjacent_ne g4
    rw [hmv]
    refine ⟨rfl, p.1, p.2, g1, g2, g4, g3, ?_, ?_, ?_, ?_, ?_, ?_, ?_⟩
    · intro h
      unfold blankNbr at hp
      rw [if_pos h] at hp
      cases hp; exact ⟨rfl, rfl⟩
    · intro h1 h2
      unfold blankNbr at hp
      rw [if_neg h1, if_pos h2] at hp
      cases hp; exact ⟨rfl, rfl⟩
    · intro h1 h2 h3
      unfold blankNbr at hp
      rw [if_neg h1, if_neg h2, if_pos h3] at hp
      cases hp; exact ⟨rfl, rfl⟩
    · intro h1 h2 h3
      unfold blankNbr at hp
      rw [if_neg h1, if_neg h2, if_neg h3] at hp
      split_ifs at hp
      cases hp; exact ⟨rfl, rfl⟩
    · show slide b tile r c p.1 p.2 p.1 p.2 = tile
      rw [slide_apply, if_neg (fun h => hpos ⟨h.1.symm, h.2.symm⟩)]; simp
    · show slide b tile r c p.1 p.2 r c = 0
      rw [slide_apply]; simp
    · intro i j hij hij0
      show slide b tile r c p.1 p.2 i j = b i j
      rw [slide_apply, if_neg hij, if_neg hij0]

/-- The theorem `move_first_cell_priority` on a `3 × 3` grid with three blanks
around the tile `5`: of the blanks above, below and to the right, the one
above receives the tile. -/
theorem move_first_cell_priority_witness :
    (3 ≤ 3 ∧ 3 ≤ 9 ∧ 1 < 3 ∧ 1 < 3 ∧ ofRows [[1, 0, 2], [3, 5, 0], [4, 0, 5]] 1 1 = 5 ∧
      (∀ r1, r1 < 3 → ∀ c1, c1 < 3 → (r1 < 1 ∨ (r1 = 1 ∧ c1 < 1)) →
        ofRows [[1, 0, 2], [3, 5, 0], [4, 0, 5]] r1 c1 ≠ 5) ∧
      ∃ r0 c0, r0 < 3 ∧ c0 < 3 ∧ Adjacent 1 1 r0 c0 ∧
        ofRows [[1, 0, 2], [3, 5, 0], [4, 0, 5]] r0 c0 = 0) ∧
    (move 3 (ofRows [[1, 0, 2], [3, 5, 0], [4, 0, 5]]) 5).1 = true ∧
    rows 3 (move 3 (ofRows [[1, 0, 2], [3, 5, 0], [4, 0, 5]]) 5).2 =
      [[1, 5, 2], [3, 0, 0], [4, 0, 5]] :=
  ⟨⟨by decide, by decide, by decide, by decide, by decide, by decide,
      ⟨0, 1, by decide, by decide, by decide, by decide⟩⟩,
    (move_first_cell_priority 3 (by decide) (by decide)
      (ofRows [[1, 0, 2], [3, 5, 0], [4, 0, 5]]) 5 1 1 (by decide) (by decide) (by decide)
      (by decide) ⟨0, 1, by decide, by decide, by decide, by decide⟩).1,
    by decide⟩

/-! ## Array accesses stay inside the region -/

theorem readCell_nat {d : Nat} (b : Board) {r c : Nat} (hr : r < d) (hc : c < d) :
    readCell d b (r : Int) (c : Int) = some (b r c) := by
  unfold readCell
  rw [if_pos (by omega)]
  simp

theorem writeCell_nat {d : Nat} (b : Board) {r c : Nat} (hr : r < d) (hc : c < d) (v : Int) :
    writeCell d b (r : Int) (c : Int) v = some (setCell b r c v) := by
  unfold writeCell
  rw [if_pos (by omega)]
  simp

theorem guardedBlank_nat {d : Nat} (b : Board) (g : Bool) {r c : Nat}
    (h : g = true → r < d ∧ c < d) :
    guardedBlank d b g (r : Int) (c : Int) = some (g && decide (b r c = 0)) := by
  unfold guardedBlank
  cases g with
  | false => simp
  | true =>
    obtain ⟨hr, hc⟩ := h rfl
    simp [readCell_nat b hr hc]

theorem slideChecked_nat {d : Nat} (b : Board) {row col r0 c0 : Nat}
    (hr : row < d) (hc : col < d) (hr0 : r0 < d) (hc0 : c0 < d) :
    slideChecked d b row col (r0 : Int) (c0 : Int)
      = some (setCell (setCell b r0 c0 (b row col)) row col 0) := by
  unfold slideChecked
  simp [readCell_nat b hr hc, writeCell_nat _ hr0 hc0, writeCell_nat _ hr hc]

theorem cast_pred {n : Nat} (h : 0 < n) : (n : Int) - 1 = ((n - 1 : Nat) : Int) := by
  omega

theorem cast_succ (n : Nat) : (n : Int) + 1 = ((n + 1 : Nat) : Int) := by
  omega

theorem guardedBlank_above {d : Nat} (b : Board) {row col : Nat} (hr : row < d)
    (hc : col < d) :
    guardedBlank d b (decide (row > 0)) ((row : Int) - 1) col
      = some (decide (row > 0 ∧ b (row - 1) col = 0)) := by
  by_cases h0 : 0 < row
  · rw [cast_pred h0, guardedBlank_nat b _ (fun _ => ⟨by omega, hc⟩)]
    simp [h0]
  · unfold guardedBlank
    simp [h0]

theorem guardedBlank_below {d : Nat} (b : Board) {row col : Nat} (hc : col < d) :
    guardedBlank d b (decide (row + 1 < d)) ((row : Int) + 1) col
      = some (decide (row + 1 < d ∧ b (row + 1) col = 0)) := by
  rw [cast_succ, guardedBlank_nat b _ (fun h => ⟨by simpa using h, hc⟩)]
  by_cases h0 : row + 1 < d <;> simp [h0]

theorem guardedBlank_left {d : Nat} (b : Board) {row col : Nat} (hr : row < d)
    (hc : col < d) :
    guardedBlank d b (decide (col > 0)) row ((col : Int) - 1)
      = some (decide (col > 0 ∧ b row (col - 1) = 0)) := by
  by_cases h0 : 0 < col
  · rw [cast_pred h0, guardedBlank_nat b _ (fun _ => ⟨hr, by omega⟩)]
    simp [h0]
  · unfold guardedBlank
    simp [h0]

theorem guardedBlank_right {d : Nat} (b : Board) {row col : Nat} (hr : row < d) :
    guardedBlank d b (decide (col + 1 < d)) row ((col : Int) + 1)
      = some (decide (col + 1 < d ∧ b row (col + 1) = 0)) := by
  rw [cast_succ, guardedBlank_nat b _ (fun h => ⟨hr, by simpa using h⟩)]
  by_cases h0 : col + 1 < d <;> simp [h0]

/-- With checked accesses the loop body of `move` never fails and computes
what the unchecked body computes. -/
theorem moveCellChecked_eq {d : Nat} (tile : Int) {row col : Nat} (hr : row < d)
    (hc : col < d) (b : Board) :
    moveCellChecked d tile row col b = some (moveCell d tile row col b) := by
  unfold moveCellChecked moveCell
  rw [readCell_nat b hr hc, guardedBlank_above b hr hc, guardedBlank_below b hc,
    guardedBlank_left b hr hc, guardedBlank_right b hr]
  simp only [Option.bind_eq_bind, Option.some_bind, Option.pure_def, decide_eq_true_eq]
  split_ifs with h1 h2 h3 h4 h5
  · rw [cast_pred h2.1, slideChecked_nat b hr hc (by omega) hc]; rfl
  · rw [cast_succ, slideChecked_nat b hr hc h3.1 hc]; rfl
  · rw [cast_pred h4.1, slideChecked_nat b hr hc hr (by omega)]; rfl
  · rw [cast_succ, slideChecked_nat b hr hc hr h5.1]; rfl
  · rfl
  · rfl

theorem moveColsChecked_eq {d : Nat} (tile : Int) {row : Nat} (hr : row < d)
    (cols : List Nat) (hcols : ∀ c ∈ cols, c < d) (b : Board) :
    moveColsChecked d tile row cols b = some (moveCols d tile row cols b) := by
  induction cols generalizing b with
  | nil => rfl
  | cons col cols ih =>
    have hcell := moveCellChecked_eq tile hr (hcols col (List.mem_cons_self _ _)) b
    have ih1 := fun b1 => ih (fun c hc => hcols c (List.mem_cons_of_mem _ hc)) b1
    unfold moveColsChecked moveCols
    rw [hcell]
    rcases moveCell d tile row col b with ⟨_ | ret, b1⟩
    · exact ih1 b1
    · rfl

theorem moveRowsChecked_eq {d : Nat} (tile : Int) (rs : List Nat) (hrs : ∀ r ∈ rs, r < d)
    (b : Board) : moveRowsChecked d tile rs b = some (moveRows d tile rs b) := by
  induction rs generalizing b with
  | nil => rfl
  | cons row rs ih =>
    have hcols := moveColsChecked_eq tile (hrs row (List.mem_cons_self _ _)) (List.range d)
      (fun c hc => List.mem_range.1 hc) b
    have ih1 := fun b1 => ih (fun r hr => hrs r (List.mem_cons_of_mem _ hr)) b1
    unfold moveRowsChecked moveRows
    rw [hcols]
    rcases moveCols d tile row (List.range d) b with ⟨_ | ret, b1⟩
    · exact ih1 b1
    · rfl

/-- With checked accesses `move` never fails and computes what `move`
computes, on any board. -/
theorem moveChecked_eq (d : Nat) (b : Board) (tile : Int) :
    moveChecked d b tile = some (move d b tile) := by
  unfold moveChecked move
  rw [moveRowsChecked_eq tile (List.range d) (fun r hr => List.mem_range.1 hr) b]
  split_ifs
  · rfl
  · rcases moveRows d tile (List.range d) b with ⟨_ | ret, b1⟩ <;> rfl

theorem wonCellChecked_eq {d : Nat} (b : Board) {row col : Nat} (hr : row < d)
    (hc : col < d) (count : Int) :
    wonCellChecked d b row col count = some (wonCell d b row col count) := by
  unfold wonCellChecked wonCell
  rw [readCell_nat b hr hc]
  simp only [Option.bind_eq_bind, Option.some_bind, Option.pure_def]
  split_ifs <;> rfl

theorem wonColsChecked_eq {d : Nat} (b : Board) {row : Nat} (hr : row < d)
    (cols : List Nat) (hcols : ∀ c ∈ cols, c < d) (count : Int) :
    wonColsChecked d b row cols count = some (wonCols d b row cols count) := by
  induction cols generalizing count with
  | nil => rfl
  | cons col cols ih =>
    have hcell := wonCellChecked_eq b hr (hcols col (List.mem_cons_self _ _)) count
    have ih1 := fun c1 => ih (fun c hc => hcols c (List.mem_cons_of_mem _ hc)) c1
    unfold wonColsChecked wonCols
    rw [hcell]
    rcases wonCell d b row col count with ⟨_ | ret, c1⟩
    · exact ih1 c1
    · rfl

theorem wonRowsChecked_eq {d : Nat} (b : Board) (rs : List Nat) (hrs : ∀ r ∈ rs, r < d)
    (count : Int) : wonRowsChecked d b rs count = some (wonRows d b rs count) := by
  induction rs generalizing count with
  | nil => rfl
  | cons row rs ih =>
    have hcols := wonColsChecked_eq b (hrs row (List.mem_cons_self _ _)) (List.range d)
      (fun c hc => List.mem_range.1 hc) count
    have ih1 := fun c1 => ih (fun r hr => hrs r (List.mem_cons_of_mem _ hr)) c1
    unfold wonRowsChecked wonRows
    rw [hcols]
    rcases wonCols d b row (List.range d) count with ⟨_ | ret, c1⟩
    · exact ih1 c1
    · rfl

/-- With checked accesses `won` never fails and computes what `won`
computes, on any board. -/
theorem wonChecked_eq (d : Nat) (b : Board) : wonChecked d b = some (won d b) := by
  unfold wonChecked won
  rw [wonRowsChecked_eq b (List.range d) (fun r hr => List.mem_range.1 hr) 1]
  rcases wonRows d b (List.range d) 1 with ⟨_ | ret, c1⟩ <;> rfl

set_option maxRecDepth 100000 in
/-- With checked accesses `init` never fails and computes what `init`
computes, whatever the board held before.  Checked by running the loops for
each dimension. -/
theorem initChecked_eq (d : Nat) (hd1 : 3 ≤ d) (hd2 : d ≤ 9) (b0 : Board) :
    initChecked d b0 = some (init d b0) := by
  interval_cases d <;> rfl

/-- A successful checked write leaves every cell outside the region as it
was. -/
theorem writeCell_frame {d : Nat} {b b1 : Board} {r c v : Int}
    (h : writeCell d b r c v = some b1) (i j : Nat) (hij : ¬(i < d ∧ j < d)) :
    b1 i j = b i j := by
  unfold writeCell at h
  split_ifs at h with hin
  cases h
  exact setCell_other b _ _ i j v (fun ⟨h1, h2⟩ => hij ⟨by omega, by omega⟩)

theorem initColsChecked_frame {d row : Nat} (cols : List Nat) (s s1 : Board × Int)
    (h : initColsChecked d row cols s = some s1) (i j : Nat) (hij : ¬(i < d ∧ j < d)) :
    s1.1 i j = s.1 i j := by
  induction cols generalizing s with
  | nil =>
    unfold initColsChecked at h
    cases h; rfl
  | cons col cols ih =>
    obtain ⟨b, count⟩ := s
    unfold initColsChecked at h
    split_ifs at h with hswap
    · cases h1 : writeCell d b row col 1 with
      | none => simp [h1] at h
      | some b1 =>
        simp only [h1] at h
        cases h2 : writeCell d b1 row ((col : Int) + 1) 2 with
        | none => simp [h2] at h
        | some b2 =>
          simp only [h2] at h
          cases h3 : writeCell d b2 row ((col : Int) + 2) 0 with
          | none => simp [h3] at h
          | some b3 =>
            simp only [h3] at h
            cases h
            show b3 i j = b i j
            rw [writeCell_frame h3 i j hij, writeCell_frame h2 i j hij,
              writeCell_frame h1 i j hij]
    · cases h1 : writeCell d b row col count with
      | none => simp [h1] at h
      | some b1 =>
        simp only [h1] at h
        rw [ih _ h]
        exact writeCell_frame h1 i j hij

theorem initRowsChecked_frame {d : Nat} (rs : List Nat) (s s1 : Board × Int)
    (h : initRowsChecked d rs s = some s1) (i j : Nat) (hij : ¬(i < d ∧ j < d)) :
    s1.1 i j = s.1 i j := by
  induction rs generalizing s with
  | nil =>
    unfold initRowsChecked at h
    cases h; rfl
  | cons row rs ih =>
    unfold initRowsChecked at h
    cases h1 : initColsChecked d row (List.range d) s with
    | none => simp [h1] at h
    | some s2 =>
      simp only [h1] at h
      rw [ih _ h]
      exact initColsChecked_frame _ _ _ h1 i j hij

/-- The routine `init` leaves every cell outside the region as it was. -/
theorem init_frame (d : Nat) (hd1 : 3 ≤ d) (hd2 : d ≤ 9) (b0 : Board) (i j : Nat)
    (hij : ¬(i < d ∧ j < d)) : init d b0 i j = b0 i j := by
  have h := initChecked_eq d hd1 hd2 b0
  unfold initChecked at h
  cases h1 : initRowsChecked d (List.range d) (b0, (d : Int) * d - 1) with
  | none => simp [h1] at h
  | some s1 =>
    simp only [h1] at h
    have h2 : s1.1 = init d b0 := by simpa using h
    rw [← h2]
    exact initRowsChecked_frame _ _ _ h1 i j hij

/-- The routine `move` leaves every cell outside the region as it was. -/
theorem move_frame (d : Nat) (hd : 0 < d) (b : Board) (tile : Int) (i j : Nat)
    (hij : ¬(i < d ∧ j < d)) : (move d b tile).2 i j = b i j := by
  rcases move_cases d hd b tile with ⟨h1, _⟩ | ⟨r, hr, c, hc, p, _, h2, h3⟩
  · rw [h1]
  · obtain ⟨g1, g2, _, _⟩ := blankNbr_some hr hc h2
    rw [h3]
    show slide b tile r c p.1 p.2 i j = b i j
    rw [slide_apply, if_neg (fun h => hij ⟨by omega, by omega⟩),
      if_neg (fun h => hij ⟨by omega, by omega⟩)]

set_option maxRecDepth 100000 in
/-- For an even dimension the last three writes of `init` are the ones of the
parity fix, made after the rows `0 .. d-2` and the columns `0 .. d-4` of the
last row have been filled: they go to the columns `d-3`, `d-2`, `d-1` of the
row `d-1`. -/
theorem init_parity_fix_cells (d : Nat) (hd : d = 4 ∨ d = 6 ∨ d = 8) (b0 : Board) :
    init d b0 =
      setCell (setCell (setCell
        (initCols d (d - 1) (List.range (d - 3))
          (initRows d (List.range (d - 1)) (b0, (d : Int) * d - 1))).1
        (d - 1) (d - 3) 1) (d - 1) (d - 2) 2) (d - 1) (d - 1) 0 ∧
    (initCols d (d - 1) (List.range (d - 3))
      (initRows d (List.range (d - 1)) (b0, (d : Int) * d - 1))).2 = 2 := by
  rcases hd with rfl | rfl | rfl <;> exact ⟨rfl, rfl⟩

/-- C17: for every dimension `d` in `[3,9]` and every board, every array
access made by `init`, `move` and `won` uses a row index and a column index in
`[0, d)`: run with checked accesses, none of the three routines ever fails, and
each computes what the unchecked routine computes.  In particular the
parity-fix writes of `init` go to the columns `d-3`, `d-2`, `d-1` of the last
row, and cells outside the `d × d` region are never written. -/
theorem accesses_in_bounds (d : Nat) (hd1 : 3 ≤ d) (hd2 : d ≤ 9) (b : Board) (tile : Int) :
    initChecked d b = some (init d b) ∧
    moveChecked d b tile = some (move d b tile) ∧
    wonChecked d b = some (won d b) ∧
    (∀ i j, ¬(i < d ∧ j < d) → init d b i j = b i j ∧ (move d b tile).2 i j = b i j) ∧
    (d % 2 = 0 →
      init d b =
        setCell (setCell (setCell
          (initCols d (d - 1) (List.range (d - 3))
            (initRows d (List.range (d - 1)) (b, (d : Int) * d - 1))).1
          (d - 1) (d - 3) 1) (d - 1) (d - 2) 2) (d - 1) (d - 1) 0) := by
  refine ⟨initChecked_eq d hd1 hd2 b, moveChecked_eq d b tile, wonChecked_eq d b,
    fun i j hij => ⟨init_frame d hd1 hd2 b i j hij, move_frame d (by omega) b tile i j hij⟩,
    fun heven => (init_parity_fix_cells d (by omega) b).1⟩

/-- The theorem `accesses_in_bounds` for `d = 4` from a fresh start; and, for
contrast, two runs that do leave the region: `init` with `d = 2` (the parity
fix would write the columns `1, 2, 3` of a two-column board) and a read of row
`-1`. -/
theorem accesses_in_bounds_witness :
    (3 ≤ 4 ∧ 4 ≤ 9) ∧
    (initChecked 4 zeroBoard = some (init 4 zeroBoard) ∧
    moveChecked 4 zeroBoard 2 = some (move 4 zeroBoard 2) ∧
    wonChecked 4 zeroBoard = some (won 4 zeroBoard) ∧
    (∀ i j, ¬(i < 4 ∧ j < 4) →
      init 4 zeroBoard i j = zeroBoard i j ∧ (move 4 zeroBoard 2).2 i j = zeroBoard i j) ∧
    (4 % 2 = 0 →
      init 4 zeroBoard =
        setCell (setCell (setCell
          (initCols 4 (4 - 1) (List.range (4 - 3))
            (initRows 4 (List.range (4 - 1)) (zeroBoard, ((4 : Nat) : Int) * (4 : Nat) - 1))).1
          (4 - 1) (4 - 3) 1) (4 - 1) (4 - 2) 2) (4 - 1) (4 - 1) 0)) ∧
    (initChecked 2 zeroBoard).isNone = true ∧
    (readCell 3 zeroBoard (-1) 0).isNone = true :=
  ⟨⟨by decide, by decide⟩, accesses_in_bounds 4 (by decide) (by decide) zeroBoard 2,
    by decide, by decide⟩

/-! ## Replay on the packed board is sound -/

theorem cellAt_lt (N k : Nat) : cellAt N k < 128 := by
  unfold cellAt
  exact Nat.mod_lt _ (by norm_num)

theorem cellAt_xor_shift (N t j k : Nat) (ht : t < 128) :
    cellAt (N ^^^ (t <<< (7 * j))) k = if k = j then cellAt N k ^^^ t else cellAt N k := by
  unfold cellAt
  have h128 : (128 : Nat) = 2 ^ 7 := by norm_num
  rw [h128]
  split_ifs with hkj
  · subst hkj
    apply Nat.eq_of_testBit_eq
    intro i
    simp only [Nat.testBit_mod_two_pow, Nat.testBit_shiftRight, Nat.testBit_xor,
      Nat.testBit_shiftLeft]
    by_cases hi : i < 7
    · simp [hi]
    · have : t.testBit i = false := Nat.testBit_lt_two_pow (lt_of_lt_of_le (h128 ▸ ht)
        (Nat.pow_le_pow_right (by norm_num) (by omega)))
      simp [hi, this]
  · apply Nat.eq_of_testBit_eq
    intro i
    simp only [Nat.testBit_mod_two_pow, Nat.testBit_shiftRight, Nat.testBit_xor,
      Nat.testBit_shiftLeft]
    by_cases hi : i < 7
    · by_cases hge : 7 * k + i ≥ 7 * j
      · have h7 : 7 ≤ 7 * k + i - 7 * j := by omega
        have : t.testBit (7 * k + i - 7 * j) = false :=
          Nat.testBit_lt_two_pow (lt_of_lt_of_le (h128 ▸ ht)
            (Nat.pow_le_pow_right (by norm_num) h7))
        simp [hi, hge, this]
      · simp [hi, hge]
    · simp [hi]

/-- Cells of the packed board after a tile and the blank are exchanged. -/
theorem cellAt_swapPacked {N t p z : Nat} (hpz : p ≠ z) (ht : cellAt N p = t)
    (hz : cellAt N z = 0) (k : Nat) :
    cellAt (swapPacked N t p z) k = if k = p then 0 else if k = z then t else cellAt N k := by
  have ht128 : t < 128 := ht ▸ cellAt_lt N p
  unfold swapPacked
  rw [cellAt_xor_shift _ t p k ht128, cellAt_xor_shift N t z k ht128]
  by_cases hkp : k = p
  · subst hkp
    rw [if_pos rfl, if_neg hpz, if_pos rfl, ht, Nat.xor_self]
  · rw [if_neg hkp, if_neg hkp]
    by_cases hkz : k = z
    · subst hkz
      rw [if_pos rfl, if_pos rfl, hz, Nat.zero_xor]
    · rw [if_neg hkz, if_neg hkz]

theorem divmod_inj {d k p : Nat} (h1 : k / d = p / d) (h2 : k % d = p % d) : k = p := by
  rw [← Nat.div_add_mod k d, ← Nat.div_add_mod p d, h1, h2]

/-- Exchanging a tile with the adjacent blank on the packed board is what
`move` does on the board it describes. -/
theorem packed_swap {d : Nat} (hd : 0 < d) {b : Board} (hb : Distinct d b) {N z p t : Nat}
    (hR : Packed d b (N, z)) (hp : p < d * d) (ht : cellAt N p = t)
    (hadj : Adjacent (p / d) (p % d) (z / d) (z % d)) :
    (move d b (t : Int)).1 = true ∧ Packed d (move d b (t : Int)).2 (swapPacked N t p z, p) := by
  obtain ⟨hz, hz0, hcells⟩ := hR
  have hpz : p ≠ z := by
    intro h
    rw [h] at hadj
    exact not_adjacent_self _ _ hadj
  have hbt : b (p / d) (p % d) = (t : Int) := by rw [hcells p hp, ht]
  have hbz : b (z / d) (z % d) = 0 := by
    rw [hcells z hz]
    show ((cellAt N z : Nat) : Int) = 0
    rw [hz0]; rfl
  have hmv := move_eq_slide hd hb (div_lt_of_lt_sq hp) (mod_lt_of_lt_sq hp)
    (div_lt_of_lt_sq hz) (mod_lt_of_lt_sq hz) hbt hbz hadj
  rw [hmv]
  refine ⟨rfl, hp, ?_, ?_⟩
  · show cellAt (swapPacked N t p z) p = 0
    rw [cellAt_swapPacked hpz ht hz0, if_pos rfl]
  · intro k hk
    show slide b (t : Int) (p / d) (p % d) (z / d) (z % d) (k / d) (k % d)
      = ((cellAt (swapPacked N t p z) k : Nat) : Int)
    rw [slide_apply, cellAt_swapPacked hpz ht hz0]
    by_cases hkp : k = p
    · subst hkp
      rw [if_pos ⟨rfl, rfl⟩, if_pos rfl]; rfl
    · rw [if_neg (fun h => hkp (divmod_inj h.1 h.2)), if_neg hkp]
      by_cases hkz : k = z
      · subst hkz
        rw [if_pos ⟨rfl, rfl⟩, if_pos rfl]
      · rw [if_neg (fun h => hkz (divmod_inj h.1 h.2)), if_neg hkz]
        exact hcells k hk

/-- One replayed move is a successful `move` on the board described. -/
theorem stepPacked_sound (d : Nat) (hd1 : 3 ≤ d) (hd2 : d ≤ 9) {b : Board}
    (hb : IsPermBoard d b) {s s1 : Nat × Nat} {t : Nat} (hR : Packed d b s)
    (h : stepPacked d s t = some s1) :
    (move d b (t : Int)).1 = true ∧ Packed d (move d b (t : Int)).2 s1 := by
  obtain ⟨N, z⟩ := s
  have hdist := ((isPermBoard_iff d b).1 hb).2
  have hz : z < d * d := hR.1
  unfold stepPacked at h
  simp only at h
  split_ifs at h with h1 h2 h3 h4
  · cases h
    refine packed_swap (by omega) hdist hR ?_ h1.2 ?_
    · omega
    · unfold Adjacent; interval_cases d <;> omega
  · cases h
    refine packed_swap (by omega) hdist hR h2.1 h2.2 ?_
    unfold Adjacent; interval_cases d <;> omega
  · cases h
    refine packed_swap (by omega) hdist hR ?_ h3.2 ?_
    · omega
    · unfold Adjacent; interval_cases d <;> omega
  · cases h
    refine packed_swap (by omega) hdist hR ?_ h4.2 ?_
    · interval_cases d <;> omega
    · unfold Adjacent; interval_cases d <;> omega

/-- A replayed sequence of moves describes the board after the same calls of
`move`. -/
theorem runPacked_sound (d : Nat) (hd1 : 3 ≤ d) (hd2 : d ≤ 9) (tiles : List Nat) :
    ∀ (b : Board) (s s1 : Nat × Nat), IsPermBoard d b → Packed d b s →
      runPacked d s tiles = some s1 →
      Packed d (moves d b (tiles.map (fun (t : Nat) => (t : Int)))) s1 := by
  induction tiles with
  | nil =>
    intro b s s1 _ hR h
    unfold runPacked at h
    cases h
    exact hR
  | cons t ts ih =>
    intro b s s1 hb hR h
    unfold runPacked at h
    cases hstep : stepPacked d s t with
    | none => simp [hstep] at h
    | some s2 =>
      simp only [hstep] at h
      have h2 := stepPacked_sound d hd1 hd2 hb hR hstep
      have := ih (move d b (t : Int)).2 s2 s1 (move_isPermBoard (by omega) hb _) h2.2 h
      unfold moves at this ⊢
      rw [List.map_cons, List.foldl_cons]
      exact this

theorem packInitOk_all (d : Nat) (hd1 : 3 ≤ d) (hd2 : d ≤ 9) : packInitOk d = true := by
  interval_cases d <;> decide!

theorem solves_solution (d : Nat) (hd1 : 3 ≤ d) (hd2 : d ≤ 9) :
    solves d (solution d) = true := by
  interval_cases d <;> decide!

/-- The packed board `packInit d` describes the board produced by `init`. -/
theorem init_packed (d : Nat) (hd1 : 3 ≤ d) (hd2 : d ≤ 9) (b0 : Board) :
    Packed d (init d b0) (packInit d, d * d - 1) := by
  have h := packInitOk_all d hd1 hd2
  unfold packInitOk at h
  rw [Bool.and_eq_true, List.all_eq_true] at h
  have hpos : 0 < d * d := Nat.mul_pos (by omega) (by omega)
  refine ⟨by show d * d - 1 < d * d; omega, by simpa using h.1, ?_⟩
  intro k hk
  rw [init_cell d hd1 hd2 b0 _ _ (div_lt_of_lt_sq hk) (mod_lt_of_lt_sq hk)]
  simpa using h.2 k (List.mem_range.2 hk)

/-- The calls `move(t)` for `t` in `solution d`, made from the board of `init`,
end in the solved configuration. -/
theorem init_solved_by_solution (d : Nat) (hd1 : 3 ≤ d) (hd2 : d ≤ 9) (b0 : Board) :
    ∀ r, r < d → ∀ c, c < d →
      moves d (init d b0) ((solution d).map (fun (t : Nat) => (t : Int))) r c
        = goalValue d (r * d + c) := by
  have h := solves_solution d hd1 hd2
  unfold solves at h
  cases hrun : runPacked d (packInit d, d * d - 1) (solution d) with
  | none => simp [hrun] at h
  | some s1 =>
    simp only [hrun] at h
    rw [List.all_eq_true] at h
    have hR := runPacked_sound d hd1 hd2 (solution d) (init d b0) _ s1
      (init_isPermBoard d hd1 hd2 b0) (init_packed d hd1 hd2 b0) hrun
    intro r hr c hc
    have hk := index_lt hr hc
    have h1 := hR.2.2 (r * d + c) hk
    rw [index_div hc, index_mod hc] at h1
    rw [h1]
    simpa using h (r * d + c) (List.mem_range.2 hk)

/-- C11: for every dimension `d` in `[3,9]`, the board produced by `init` is
solvable: there exists a finite sequence of tile values such that calling
`move` with them in order, starting from the `init` board, ends in a board on
which `won` returns true.  The sequence `solution d` is one. -/
theorem init_solvable (d : Nat) (hd1 : 3 ≤ d) (hd2 : d ≤ 9) (b0 : Board) :
    won d (moves d (init d b0) ((solution d).map (fun (t : Nat) => (t : Int)))) = true ∧
    ∃ tiles : List Int, won d (moves d (init d b0) tiles) = true := by
  have h : won d (moves d (init d b0) ((solution d).map (fun (t : Nat) => (t : Int))))
      = true := by
    rw [won_iff_goal]
    exact init_solved_by_solution d hd1 hd2 b0
  exact ⟨h, _, h⟩

/-- The theorem `init_solvable` for `d = 3` from a fresh start, with the
sequence of tiles written out and the board it ends in. -/
theorem init_solvable_witness :
    (3 ≤ 3 ∧ 3 ≤ 9) ∧
    (won 3 (moves 3 (init 3 zeroBoard) ((solution 3).map (fun (t : Nat) => (t : Int)))) = true ∧
      ∃ tiles : List Int, won 3 (moves 3 (init 3 zeroBoard) tiles) = true) ∧
    rows 3 (moves 3 (init 3 zeroBoard) 
      [3, 4, 1, 2, 5, 1, 7, 8, 1, 7, 2, 3, 4, 2, 8, 6, 2, 8, 3, 4, 8, 3, 6, 2, 3, 6, 4, 5, 7, 4, 5, 8]) = [[1, 2, 3], [4, 5, 6], [7, 8, 0]] :=
  ⟨⟨by decide, by decide⟩, init_solvable 3 (by decide) (by decide) zeroBoard, by decide!⟩

/-! ## The parity of a board and its invariance under `move` -/

/-- Every permutation board has a parity. -/
theorem parity_exists {d : Nat} (hd : 0 < d) {b : Board} (hb : IsPermBoard d b) :
    ∃ s, Parity d b s := by
  obtain ⟨hrange, hdist⟩ := (isPermBoard_iff d b).1 hb
  have hval : ∀ k : Fin (d * d), 0 ≤ b (k / d) (k % d) ∧
      b (k / d) (k % d) < ((d * d : Nat) : Int) := by
    intro k
    have := hrange _ (div_lt_of_lt_sq k.2) _ (mod_lt_of_lt_sq k.2)
    push_cast
    exact this
  let f : Fin (d * d) → Fin (d * d) := fun k =>
    ⟨(b (k / d) (k % d)).toNat, (Int.toNat_lt (hval k).1).2 (hval k).2⟩
  have hf : ∀ k, (((f k : Fin (d * d)) : Nat) : Int) = b (k / d) (k % d) := by
    intro k
    exact Int.toNat_of_nonneg (hval k).1
  have hinj : Function.Injective f := by
    intro k k1 h
    have h1 : b (k / d) (k % d) = b (k1 / d) (k1 % d) := by
      rw [← hf k, ← hf k1, h]
    have h2 := hdist _ (div_lt_of_lt_sq k.2) _ (mod_lt_of_lt_sq k.2)
      _ (div_lt_of_lt_sq k1.2) _ (mod_lt_of_lt_sq k1.2) h1
    exact Fin.ext (divmod_inj h2.1 h2.2)
  have hbij : Function.Bijective f := Finite.injective_iff_bijective.1 hinj
  obtain ⟨z, hz⟩ := hbij.2 ⟨0, Nat.mul_pos hd hd⟩
  refine ⟨_, Equiv.ofBijective f hbij, z, ?_, ?_, rfl⟩
  · intro k
    exact (hf k).symm
  · show ((f z : Fin (d * d)) : Nat) = 0
    rw [hz]

/-- Boards with the same cells in the region have the same parity. -/
theorem parity_unique {d : Nat} {b b1 : Board} {s s1 : ℤˣ}
    (hsame : ∀ k, k < d * d → b (k / d) (k % d) = b1 (k / d) (k % d))
    (h : Parity d b s) (h1 : Parity d b1 s1) : s = s1 := by
  obtain ⟨σ, z, hσ, hz, hs⟩ := h
  obtain ⟨σ1, z1, hσ1, hz1, hs1⟩ := h1
  have heq : σ = σ1 := by
    apply Equiv.ext
    intro k
    apply Fin.ext
    have := hsame k k.2
    rw [hσ k, hσ1 k] at this
    exact_mod_cast this
  subst heq
  have hzz : z = z1 := σ.injective (Fin.ext (hz.trans hz1.symm))
  subst hzz
  rw [← hs, ← hs1]

/-- Exchanging the contents of two distinct cells composes the listing
permutation with a transposition. -/
theorem represents_exchange {d : Nat} {b b1 : Board} {σ : Equiv.Perm (Fin (d * d))}
    (hσ : Represents d b σ) (q1 q2 : Fin (d * d))
    (h : ∀ k : Fin (d * d), b1 (k / d) (k % d)
      = b ((Equiv.swap q1 q2 k : Fin (d * d)) / d) ((Equiv.swap q1 q2 k : Fin (d * d)) % d)) :
    Represents d b1 (σ * Equiv.swap q1 q2) := by
  intro k
  rw [h k, hσ (Equiv.swap q1 q2 k)]
  rfl

theorem neg_one_pow_adjacent {r c r0 c0 : Nat} (h : Adjacent r c r0 c0) :
    ((-1 : ℤˣ)) ^ (r + c) = -((-1 : ℤˣ)) ^ (r0 + c0) := by
  unfold Adjacent at h
  rcases h with ⟨rfl, h | h⟩ | ⟨rfl, h | h⟩
  · subst h; rw [show r0 + 1 + c0 = (r0 + c0) + 1 by ring, pow_succ]; simp
  · subst h; rw [show r + 1 + c0 = (r + c0) + 1 by ring, pow_succ]; simp
  · subst h; rw [show r0 + (c0 + 1) = (r0 + c0) + 1 by ring, pow_succ]; simp
  · subst h; rw [show r0 + (c + 1) = (r0 + c) + 1 by ring, pow_succ]; simp

/-- Sliding a tile into the adjacent blank keeps the parity. -/
theorem parity_slide {d : Nat} {b : Board} (hb : Distinct d b) {s : ℤˣ} {tile : Int}
    {r c r0 c0 : Nat} (hr : r < d) (hc : c < d) (hr0 : r0 < d) (hc0 : c0 < d)
    (ht : b r c = tile) (hz0 : b r0 c0 = 0) (hadj : Adjacent r c r0 c0)
    (h : Parity d b s) : Parity d (slide b tile r c r0 c0) s := by
  obtain ⟨σ, z, hσ, hz, hs⟩ := h
  -- the blank index is the index of (r0, c0)
  have hbz : b (z / d) (z % d) = 0 := by rw [hσ z, hz]; rfl
  obtain ⟨e1, e2⟩ := hb _ (div_lt_of_lt_sq z.2) _ (mod_lt_of_lt_sq z.2) r0 hr0 c0 hc0
    (by rw [hbz, hz0])
  let q : Fin (d * d) := ⟨r * d + c, index_lt hr hc⟩
  have hq1 : (q : Nat) / d = r := index_div hc
  have hq2 : (q : Nat) % d = c := index_mod hc
  have hqz : q ≠ z := by
    intro h
    apply adjacent_ne hadj
    rw [← hq1, ← hq2, ← e1, ← e2, h]
    exact ⟨rfl, rfl⟩
  refine ⟨σ * Equiv.swap q z, q, ?_, ?_, ?_⟩
  · apply represents_exchange hσ
    intro k
    rw [slide_apply]
    by_cases hkq : k = q
    · subst hkq
      rw [if_pos ⟨hq1, hq2⟩, Equiv.swap_apply_left, hbz]
    · rw [if_neg (fun h => hkq (Fin.ext (divmod_inj (h.1.trans hq1.symm) (h.2.trans hq2.symm))))]
      by_cases hkz : k = z
      · subst hkz
        rw [if_pos ⟨e1, e2⟩, Equiv.swap_apply_right, hq1, hq2, ht]
      · rw [if_neg (fun h => hkz (Fin.ext (divmod_inj (h.1.trans e1.symm) (h.2.trans e2.symm)))),
          Equiv.swap_apply_of_ne_of_ne hkq hkz]
  · show (((σ * Equiv.swap q z) q : Fin (d * d)) : Nat) = 0
    rw [Equiv.Perm.mul_apply, Equiv.swap_apply_left, hz]
  · rw [Equiv.Perm.sign_mul, Equiv.Perm.sign_swap hqz, hq1, hq2, neg_one_pow_adjacent hadj,
      ← e1, ← e2, ← hs]
    simp

/-- A call of `move` keeps the parity of a permutation board. -/
theorem parity_move {d : Nat} (hd : 0 < d) {b : Board} (hb : IsPermBoard d b) {s : ℤˣ}
    (h : Parity d b s) (tile : Int) : Parity d (move d b tile).2 s := by
  rcases move_cases d hd b tile with ⟨h1, _⟩ | ⟨r, hr, c, hc, p, h1, h2, h3⟩
  · rw [h1]; exact h
  · obtain ⟨g1, g2, g3, g4⟩ := blankNbr_some hr hc h2
    rw [h3]
    exact parity_slide ((isPermBoard_iff d b).1 hb).2 hr hc g1 g2 h1 g3 g4 h

/-- Any sequence of calls of `move` keeps the parity of a permutation board. -/
theorem parity_moves {d : Nat} (hd : 0 < d) (tiles : List Int) :
    ∀ (b : Board) (s : ℤˣ), IsPermBoard d b → Parity d b s → Parity d (moves d b tiles) s := by
  induction tiles with
  | nil => intro b s _ h; exact h
  | cons t ts ih =>
    intro b s hb h
    unfold moves
    rw [List.foldl_cons]
    exact ih _ s (move_isPermBoard hd hb t) (parity_move hd hb h t)

/-! ## The descending fill without the parity fix -/

/-- A board holding the descending fill in its region is a permutation
board. -/
theorem descending_isPermBoard (d : Nat) (b : Board)
    (hb0 : ∀ r, r < d → ∀ c, c < d → b r c = (d : Int) * d - 1 - ((r : Int) * d + c)) :
    IsPermBoard d b := by
  rw [isPermBoard_iff]
  constructor
  · intro r hr c hc
    rw [hb0 r hr c hc]
    have := index_lt hr hc
    have h1 : ((r * d + c : Nat) : Int) < ((d * d : Nat) : Int) := by exact_mod_cast this
    push_cast at h1
    constructor <;> omega
  · intro r hr c hc r1 hr1 c1 hc1 h
    rw [hb0 r hr c hc, hb0 r1 hr1 c1 hc1] at h
    have h1 : ((r * d + c : Nat) : Int) = ((r1 * d + c1 : Nat) : Int) := by
      push_cast; omega
    have h2 : r * d + c = r1 * d + c1 := by exact_mod_cast h1
    have e1 := congrArg (fun k => k / d) h2
    have e2 := congrArg (fun k => k % d) h2
    simp only [index_div hc, index_mod hc, index_div hc1, index_mod hc1] at e1 e2
    exact ⟨e1, e2⟩

/-- For an even dimension the board of `init` is the descending fill with the
contents of the cells `d*d - 3` and `d*d - 2` exchanged, so its parity is the
opposite one. -/
theorem parity_init_of_descending (d : Nat) (hd : d = 4 ∨ d = 6 ∨ d = 8) (b b0 : Board)
    (hb0 : ∀ r, r < d → ∀ c, c < d → b r c = (d : Int) * d - 1 - ((r : Int) * d + c))
    {s : ℤˣ} (h : Parity d b s) : Parity d (init d b0) (-s) := by
  have hd1 : 3 ≤ d := by omega
  have hd2 : d ≤ 9 := by omega
  obtain ⟨σ, z, hσ, hz, hs⟩ := h
  have hn : 3 ≤ d * d := by rcases hd with rfl | rfl | rfl <;> omega
  let q1 : Fin (d * d) := ⟨d * d - 3, by omega⟩
  let q2 : Fin (d * d) := ⟨d * d - 2, by omega⟩
  have hq : q1 ≠ q2 := by
    intro h
    have := congrArg Fin.val h
    simp only [q1, q2] at this
    omega
  have hcell : ∀ k : Fin (d * d),
      b (k / d) (k % d) = (d : Int) * d - 1 - ((k : Nat) : Int) := by
    intro k
    rw [hb0 _ (div_lt_of_lt_sq k.2) _ (mod_lt_of_lt_sq k.2)]
    have := Nat.div_add_mod' (k : Nat) d
    have h1 : (((k : Nat) / d * d + (k : Nat) % d : Nat) : Int) = ((k : Nat) : Int) := by
      rw [this]
    push_cast at h1
    omega
  have hinit : ∀ k : Fin (d * d), init d b0 (k / d) (k % d) =
      if (k : Nat) + 3 = d * d then 1 else if (k : Nat) + 2 = d * d then 2
      else (d : Int) * d - 1 - ((k : Nat) : Int) := by
    intro k
    rw [init_cell d hd1 hd2 b0 _ _ (div_lt_of_lt_sq k.2) (mod_lt_of_lt_sq k.2)]
    unfold initValue
    rw [Nat.div_add_mod' (k : Nat) d]
    have heven : d % 2 = 0 := by rcases hd with rfl | rfl | rfl <;> rfl
    simp only [heven, true_and]
  -- the blank of the descending fill is the last cell
  have hzlast : (z : Nat) = d * d - 1 := by
    have h1 := hcell z
    rw [hσ z, hz] at h1
    have h2 : ((d * d : Nat) : Int) = (d : Int) * d := by push_cast; rfl
    have h3 : ((z : Nat) : Int) = ((d * d : Nat) : Int) - 1 := by
      rw [h2]
      simp only [Nat.cast_zero] at h1
      omega
    omega
  have hzq1 : z ≠ q1 := by
    intro h
    have := congrArg Fin.val h
    simp only [q1] at this
    omega
  have hzq2 : z ≠ q2 := by
    intro h
    have := congrArg Fin.val h
    simp only [q2] at this
    omega
  refine ⟨σ * Equiv.swap q1 q2, z, ?_, ?_, ?_⟩
  · apply represents_exchange hσ
    intro k
    rw [hinit k, hcell]
    by_cases hk1 : k = q1
    · subst hk1
      rw [Equiv.swap_apply_left]
      simp only [q1, q2]
      rw [if_pos (by omega)]
      have h2 : ((d * d - 2 : Nat) : Int) = (d : Int) * d - 2 := by
        rw [Nat.cast_sub (by omega)]; push_cast; rfl
      rw [h2]; ring
    · by_cases hk2 : k = q2
      · subst hk2
        rw [Equiv.swap_apply_right]
        simp only [q1, q2]
        rw [if_neg (by omega), if_pos (by omega)]
        have h2 : ((d * d - 3 : Nat) : Int) = (d : Int) * d - 3 := by
          rw [Nat.cast_sub (by omega)]; push_cast; rfl
        rw [h2]; ring
      · rw [Equiv.swap_apply_of_ne_of_ne hk1 hk2]
        have h1 : ¬((k : Nat) + 3 = d * d) := by
          intro h
          apply hk1
          apply Fin.ext
          simp only [q1]
          omega
        have h2 : ¬((k : Nat) + 2 = d * d) := by
          intro h
          apply hk2
          apply Fin.ext
          simp only [q2]
          omega
        rw [if_neg h1, if_neg h2]
  · show (((σ * Equiv.swap q1 q2) z : Fin (d * d)) : Nat) = 0
    rw [Equiv.Perm.mul_apply, Equiv.swap_apply_of_ne_of_ne hzq1 hzq2, hz]
  · rw [Equiv.Perm.sign_mul, Equiv.Perm.sign_swap hq, ← hs]
    simp

/-- C15: for every even dimension `d` in `{4,6,8}`, the naive descending fill
without the parity fix (row-major `d*d-1, ..., 3, 2, 1, 0`) is not solvable: no
finite sequence of `move` calls starting from a board holding that fill
reaches a board on which `won` returns true. -/
theorem descending_unsolvable (d : Nat) (hd : d = 4 ∨ d = 6 ∨ d = 8) (b : Board)
    (hb0 : ∀ r, r < d → ∀ c, c < d → b r c = (d : Int) * d - 1 - ((r : Int) * d + c))
    (tiles : List Int) : won d (moves d b tiles) = false := by
  have hd1 : 3 ≤ d := by omega
  have hd2 : d ≤ 9 := by omega
  have hpos : 0 < d := by omega
  have hperm := descending_isPermBoard d b hb0
  obtain ⟨s, hs⟩ := parity_exists hpos hperm
  have hinit := parity_init_of_descending d hd b zeroBoard hb0 hs
  have hgoal2 := init_solved_by_solution d hd1 hd2 zeroBoard
  have hpar2 := parity_moves hpos ((solution d).map (fun (t : Nat) => (t : Int)))
    (init d zeroBoard) (-s) (init_isPermBoard d hd1 hd2 zeroBoard) hinit
  have hpar1 := parity_moves hpos tiles b s hperm hs
  cases hw : won d (moves d b tiles) with
  | false => rfl
  | true =>
    exfalso
    have hgoal1 := (won_iff_goal d _).1 hw
    have hsame : ∀ k, k < d * d →
        moves d b tiles (k / d) (k % d)
          = moves d (init d zeroBoard) ((solution d).map (fun (t : Nat) => (t : Int)))
              (k / d) (k % d) := by
      intro k hk
      rw [hgoal1 _ (div_lt_of_lt_sq hk) _ (mod_lt_of_lt_sq hk),
        hgoal2 _ (div_lt_of_lt_sq hk) _ (mod_lt_of_lt_sq hk)]
    exact units_ne_neg_self s (parity_unique hsame hpar1 hpar2)

/-- The theorem `descending_unsolvable` for `d = 4` on the board
`[[15,14,13,12],[11,10,9,8],[7,6,5,4],[3,2,1,0]]`, with the two moves
`1, 2` as the sequence tried. -/
theorem descending_unsolvable_witness :
    ((4 = 4 ∨ 4 = 6 ∨ 4 = 8) ∧
      ∀ r, r < 4 → ∀ c, c < 4 →
        descendingBoard 4 r c = ((4 : Nat) : Int) * (4 : Nat) - 1 - ((r : Int) * (4 : Nat) + c)) ∧
    won 4 (moves 4 (descendingBoard 4) [1, 2]) = false ∧
    rows 4 (descendingBoard 4) =
      [[15, 14, 13, 12], [11, 10, 9, 8], [7, 6, 5, 4], [3, 2, 1, 0]] ∧
    rows 4 (moves 4 (descendingBoard 4) [1, 2]) =
      [[15, 14, 13, 12], [11, 10, 9, 8], [7, 6, 5, 4], [3, 0, 2, 1]] :=
  ⟨⟨by decide, by decide⟩,
    descending_unsolvable 4 (by decide) (descendingBoard 4) (by decide) [1, 2],
    by decide, by decide⟩

end Fifteen
